import Mathlib

/-!
Shallow embedding of the pulse-generator engine of `mod_pulsgen.c`
(arisc_firmware), together with theorems checking the specification's
claims about it.

Machine integers are modelled as `Nat` with explicit reduction modulo
`2^8` / `2^32` / `2^64` at exactly the places where the C types wrap.
The GPIO data registers (`mod_gpio.c` / the `GPIO_PIN_*` macros of
`mod_gpio.h`) are modelled as a function from port index to a 32-bit
register value.  Statics of `mod_pulsgen.c` form the record
`PulsgenState`; every C function that mutates them becomes a Lean
function `PulsgenState → PulsgenState`.
-/

namespace Pulsgen

/-- `2^32`, the modulus of C `uint32_t` arithmetic. -/
def U32 : Nat := 2 ^ 32

/-- `2^64`, the modulus of C `uint64_t` arithmetic. -/
def U64 : Nat := 2 ^ 64

/-- Truncation to `uint8_t`. -/
def u8 (n : Nat) : Nat := n % 256

/-- Truncation to `uint32_t`. -/
def u32 (n : Nat) : Nat := n % U32

/-- Truncation to `uint64_t`. -/
def u64 (n : Nat) : Nat := n % U64

/-- Reinterpret a `uint32_t` bit pattern as the C `int32_t` it encodes
(two's complement). -/
def i32 (n : Nat) : Int := if n % U32 < 2 ^ 31 then (n % U32 : Int) else (n % U32 : Int) - (U32 : Int)

/-- Modelled from the spec: `PULSGEN_CH_CNT` lives in `mod_pulsgen.h`,
which is not under `src/`; the spec only requires it to be at least any
channel id used (§6 "compile-time constants"). -/
def PULSGEN_CH_CNT : Nat := 16

/-- Modelled from the spec: `PULSGEN_FIFO_SIZE` lives in `mod_pulsgen.h`,
which is not under `src/`; the spec calls it the per-channel task queue
depth (§6). -/
def PULSGEN_FIFO_SIZE : Nat := 4

/-- Modelled from the spec: `TIMER_FREQUENCY_MHZ` lives in `mod_timer.h`,
which is not under `src/`; spec §8 S1 uses the value 24. -/
def TIMER_FREQUENCY_MHZ : Nat := 24

/-- GPIO data registers: port index to 32-bit register value.  Modelled
from the spec (§6 GPIO sink) and the register idiom of `mod_gpio.c`:
the `GPIO_PIN_*` macro bodies are in `mod_gpio.h`, not under `src/`. -/
def Ports : Type := Nat → Nat

/-- `GPIO_PIN_GET(port, mask)`: the data register masked by the pin mask
(nonzero iff the raw pin level is high). -/
def GPIO_PIN_GET (p : Ports) (port mask : Nat) : Nat := p port &&& mask

/-- `GPIO_PIN_SET(port, mask)`: or the pin mask into the data register. -/
def GPIO_PIN_SET (p : Ports) (port mask : Nat) : Ports :=
  fun q => if q = port then u32 (p port ||| mask) else p q

/-- `GPIO_PIN_CLEAR(port, mask_not)`: and the complemented mask into the
data register. -/
def GPIO_PIN_CLEAR (p : Ports) (port mask_not : Nat) : Ports :=
  fun q => if q = port then p port &&& mask_not else p q

/-- One entry of `struct pulsgen_ch_t gen[]` (fields as used by
`mod_pulsgen.c`). -/
structure PulsgenCh where
  port : Nat
  pin_mask : Nat
  pin_mask_not : Nat
  pin_inverted : Nat
  task : Bool
  task_infinite : Bool
  toggles_dir : Nat
  task_toggles : Nat
  task_toggles_todo : Nat
  abort_on_hold : Bool
  abort_on_setup : Bool
  setup_ticks : Nat
  hold_ticks : Nat
  todo_tick : Nat
  cnt : Nat
  tasks_done : Nat
  deriving DecidableEq

/-- One entry of `struct pulsgen_fifo_item_t fifo[][]`. -/
structure FifoItem where
  used : Bool
  toggles_dir : Nat
  toggles : Nat
  pin_setup_time : Nat
  pin_hold_time : Nat
  start_delay : Nat
  deriving DecidableEq

/-- All-zero channel record (C static initialisation `= {0}`). -/
def zeroCh : PulsgenCh :=
  { port := 0, pin_mask := 0, pin_mask_not := 0, pin_inverted := 0,
    task := false, task_infinite := false, toggles_dir := 0,
    task_toggles := 0, task_toggles_todo := 0,
    abort_on_hold := false, abort_on_setup := false,
    setup_ticks := 0, hold_ticks := 0, todo_tick := 0, cnt := 0, tasks_done := 0 }

/-- All-zero FIFO slot (C static initialisation `= {{0}}`). -/
def zeroItem : FifoItem :=
  { used := false, toggles_dir := 0, toggles := 0,
    pin_setup_time := 0, pin_hold_time := 0, start_delay := 0 }

/-- The private statics of `mod_pulsgen.c` plus the GPIO data
registers they drive. -/
structure PulsgenState where
  max_id : Nat
  gen : Nat → PulsgenCh
  tick : Nat
  wd_ticks : Nat
  wd_todo_tick : Nat
  fifo : Nat → Nat → FifoItem
  fifo_pos : Nat → Nat
  ports : Ports

/-- State at C program start: every static zero-initialised. -/
def initState : PulsgenState :=
  { max_id := 0, gen := fun _ => zeroCh, tick := 0, wd_ticks := 0,
    wd_todo_tick := 0, fifo := fun _ _ => zeroItem, fifo_pos := fun _ => 0,
    ports := fun _ => 0 }

/-- Replace channel `c`'s record. -/
def updGen (s : PulsgenState) (c : Nat) (g : PulsgenCh) : PulsgenState :=
  { s with gen := fun i => if i = c then g else s.gen i }

/-- Replace FIFO slot `(c, i)`. -/
def updFifo (s : PulsgenState) (c i : Nat) (it : FifoItem) : PulsgenState :=
  { s with fifo := fun c' i' => if c' = c ∧ i' = i then it else s.fifo c' i' }

/-- Replace `fifo_pos[c]`. -/
def updFifoPos (s : PulsgenState) (c p : Nat) : PulsgenState :=
  { s with fifo_pos := fun c' => if c' = c then p else s.fifo_pos c' }

/-- The nanosecond-to-tick conversion appearing throughout the module:
`(uint64_t)ns * (uint64_t)TIMER_FREQUENCY_MHZ / (uint64_t)1000`,
performed in `uint64_t` arithmetic. -/
def conv_ns (ns : Nat) : Nat := (ns * TIMER_FREQUENCY_MHZ % U64) / 1000

/-- `static void abort(uint8_t c)` of `mod_pulsgen.c` lines 292-304:
clear the latches and the task flag, shrink `max_id` when it equals `c`,
zero the `used` flag of every FIFO slot of channel `c`. -/
def abort (c : Nat) (s : PulsgenState) : PulsgenState :=
  let g := s.gen c
  let s := updGen s c { g with abort_on_hold := false, abort_on_setup := false, task := false }
  let s := if s.max_id ≠ 0 ∧ c = s.max_id then { s with max_id := s.max_id - 1 } else s
  { s with fifo := fun c' i =>
      if c' = c ∧ i < PULSGEN_FIFO_SIZE then { s.fifo c' i with used := false } else s.fifo c' i }

/-- `static void task_setup(...)` of `mod_pulsgen.c` lines 228-262. -/
def task_setup (c toggles_dir toggles pin_setup_time pin_hold_time start_delay : Nat)
    (s : PulsgenState) : PulsgenState :=
  let toggles_dir := u32 toggles_dir
  let toggles := u32 toggles
  let pin_setup_time := u32 pin_setup_time
  let pin_hold_time := u32 pin_hold_time
  let start_delay := u32 start_delay
  let s := if c > s.max_id then { s with max_id := u8 (s.max_id + 1) } else s
  let g := s.gen c
  let g := { g with
    task := true
    task_infinite := toggles = 0
    toggles_dir := toggles_dir
    task_toggles := if toggles ≠ 0 then toggles else U32 - 1
    task_toggles_todo := if toggles ≠ 0 then toggles else U32 - 1
    abort_on_hold := false
    abort_on_setup := false
    setup_ticks := u32 (conv_ns pin_setup_time)
    hold_ticks := u32 (conv_ns pin_hold_time)
    todo_tick := s.tick }
  let g := if start_delay ≠ 0 then { g with todo_tick := u64 (g.todo_tick + conv_ns start_delay) } else g
  updGen s c g

/-- `void pulsgen_pin_setup(...)` of `mod_pulsgen.c` lines 158-170.
(`gpio_pin_setup_for_output` touches only the pin-configuration
registers, which are outside the data-register model.) -/
def pulsgen_pin_setup (c port pin inverted : Nat) (s : PulsgenState) : PulsgenState :=
  let c := u8 c
  let port := u8 port
  let pin := u8 pin
  let inverted := u8 inverted
  let mask := u32 (1 <<< pin)
  let g := { s.gen c with
    port := port
    pin_mask := mask
    pin_mask_not := (U32 - 1) ^^^ mask
    pin_inverted := if inverted ≠ 0 then mask else 0 }
  let s := updGen s c g
  if g.pin_inverted ≠ 0 then { s with ports := GPIO_PIN_SET s.ports port g.pin_mask }
  else { s with ports := GPIO_PIN_CLEAR s.ports port g.pin_mask_not }

/-- The slot positions visited by the free-slot scan of
`pulsgen_task_add` (lines 203-216): `pos` starts at `fifo_pos[c] + 1`,
is wrapped to 0 whenever it reaches `PULSGEN_FIFO_SIZE`, and the loop
runs `PULSGEN_FIFO_SIZE` times. -/
def fifoScan : Nat → Nat → List Nat
  | 0, _ => []
  | n + 1, pos =>
      let pos := if PULSGEN_FIFO_SIZE ≤ pos then 0 else pos
      pos :: fifoScan n (pos + 1)

/-- `void pulsgen_task_add(...)` of `mod_pulsgen.c` lines 187-226. -/
def pulsgen_task_add (c toggles_dir toggles pin_setup_time pin_hold_time start_delay : Nat)
    (s : PulsgenState) : PulsgenState :=
  if (s.gen c).task then
    match (fifoScan PULSGEN_FIFO_SIZE (s.fifo_pos c + 1)).find? (fun pos => !(s.fifo c pos).used) with
    | some pos =>
        updFifo s c pos
          { used := true, toggles_dir := u32 toggles_dir, toggles := u32 toggles,
            pin_setup_time := u32 pin_setup_time, pin_hold_time := u32 pin_hold_time,
            start_delay := u32 start_delay }
    | none => s
  else
    let s := updFifo s c (s.fifo_pos c) { s.fifo c (s.fifo_pos c) with used := true }
    task_setup c toggles_dir toggles pin_setup_time pin_hold_time start_delay s

/-- `void pulsgen_abort(uint8_t c, uint8_t on_hold)` of `mod_pulsgen.c`
lines 272-290. -/
def pulsgen_abort (c on_hold : Nat) (s : PulsgenState) : PulsgenState :=
  let c := u8 c
  let on_hold := u8 on_hold
  let g := s.gen c
  if GPIO_PIN_GET s.ports g.port g.pin_mask ^^^ g.pin_inverted ≠ 0 then
    if on_hold ≠ 0 then abort c s
    else updGen s c { g with abort_on_setup := true }
  else
    if on_hold = 0 then abort c s
    else updGen s c { g with abort_on_hold := true }

/-- Lines 134-138 of the scan loop: `--gen[c].task_toggles_todo;` and
`gen[c].cnt += gen[c].task_toggles * (gen[c].toggles_dir ? -1 : 1);`
(both in `uint32_t` arithmetic). -/
def tallyToggles (c : Nat) (s : PulsgenState) : PulsgenState :=
  let g := s.gen c
  updGen s c { g with
    task_toggles_todo := u32 (g.task_toggles_todo + (U32 - 1))
    cnt := u32 (g.cnt + g.task_toggles * (if g.toggles_dir ≠ 0 then U32 - 1 else 1)) }

/-- Lines 95-118 of the scan loop: the active task has no toggles left —
release the FIFO head, advance the head index (u8 increment, wrapped at
`PULSGEN_FIFO_SIZE`), and either install the next queued task or
disable the channel (shrinking `max_id` when it equals `c`). -/
def retireStep (c : Nat) (s : PulsgenState) : PulsgenState :=
  let s := updFifo s c (s.fifo_pos c) { s.fifo c (s.fifo_pos c) with used := false }
  let p := u8 (s.fifo_pos c + 1)
  let p := if PULSGEN_FIFO_SIZE ≤ p then 0 else p
  let s := updFifoPos s c p
  if (s.fifo c p).used then
    let it := s.fifo c p
    task_setup c it.toggles_dir it.toggles it.pin_setup_time it.pin_hold_time it.start_delay s
  else
    let s := updGen s c { s.gen c with task := false }
    if s.max_id ≠ 0 ∧ c = s.max_id then { s with max_id := s.max_id - 1 } else s

/-- The body of the channel scan loop of `pulsgen_module_base_thread`
(`mod_pulsgen.c` lines 86-139) for one channel `c`. -/
def serviceCh (abortAll : Bool) (c : Nat) (s : PulsgenState) : PulsgenState :=
  if ¬(s.gen c).task then s
  else if abortAll then abort c s
  else if s.tick < (s.gen c).todo_tick then s
  else if (s.gen c).task_toggles_todo = 0 ∧ ¬(s.gen c).task_infinite then
    retireStep c s
  else
    let g := s.gen c
    if GPIO_PIN_GET s.ports g.port g.pin_mask ^^^ g.pin_inverted ≠ 0 then
      let s := { s with ports := GPIO_PIN_CLEAR s.ports g.port g.pin_mask_not }
      let s :=
        if (s.gen c).abort_on_setup then abort c s
        else updGen s c { s.gen c with todo_tick := u64 ((s.gen c).todo_tick + (s.gen c).setup_ticks) }
      tallyToggles c s
    else
      let s := { s with ports := GPIO_PIN_SET s.ports g.port g.pin_mask }
      let s :=
        if (s.gen c).abort_on_hold then abort c s
        else updGen s c { s.gen c with todo_tick := u64 ((s.gen c).todo_tick + (s.gen c).hold_ticks) }
      tallyToggles c s

/-- `void pulsgen_module_base_thread()` of `mod_pulsgen.c` lines 75-143.
The current CPU tick (`timer_cnt_get_64()`, external) is the argument
`t`.  The loop bound `max_id + 1` is read once at loop entry, and the
loop visits `c = max_id, ..., 0`. -/
def pulsgen_module_base_thread (t : Nat) (s : PulsgenState) : PulsgenState :=
  let s := { s with tick := u64 t }
  let abortAll := s.wd_todo_tick ≠ 0 ∧ s.wd_todo_tick < s.tick
  ((List.range (u8 (s.max_id + 1))).reverse).foldl
    (fun st c => serviceCh (decide abortAll) c st) s

/-- `uint8_t pulsgen_state_get(uint8_t c)`. -/
def pulsgen_state_get (c : Nat) (s : PulsgenState) : Nat :=
  if (s.gen (u8 c)).task then 1 else 0

/-- `uint32_t pulsgen_task_toggles_get(uint8_t c)`:
`gen[c].task_toggles - gen[c].task_toggles_todo` in `uint32_t`. -/
def pulsgen_task_toggles_get (c : Nat) (s : PulsgenState) : Nat :=
  let g := s.gen (u8 c)
  u32 (g.task_toggles + U32 - g.task_toggles_todo % U32)

/-- `int32_t pulsgen_cnt_get(uint8_t c)`. -/
def pulsgen_cnt_get (c : Nat) (s : PulsgenState) : Int :=
  i32 (s.gen (u8 c)).cnt

/-- `void pulsgen_cnt_set(uint8_t c, int32_t value)`. -/
def pulsgen_cnt_set (c : Nat) (value : Int) (s : PulsgenState) : PulsgenState :=
  updGen s (u8 c) { s.gen (u8 c) with cnt := (value % (U32 : Int)).toNat }

/-- `uint32_t pulsgen_tasks_done_get(uint8_t c)`. -/
def pulsgen_tasks_done_get (c : Nat) (s : PulsgenState) : Nat :=
  (s.gen (u8 c)).tasks_done

/-- `void pulsgen_tasks_done_set(uint8_t c, uint32_t tasks)`. -/
def pulsgen_tasks_done_set (c tasks : Nat) (s : PulsgenState) : PulsgenState :=
  updGen s (u8 c) { s.gen (u8 c) with tasks_done := u32 tasks }

/-- `void pulsgen_watchdog_setup(uint8_t enable, uint32_t time)` of
`mod_pulsgen.c` lines 392-398. -/
def pulsgen_watchdog_setup (enable time : Nat) (s : PulsgenState) : PulsgenState :=
  let enable := u8 enable
  let time := u32 time
  if enable = 0 then { s with wd_todo_tick := 0 }
  else
    let wt := conv_ns time
    { s with wd_ticks := wt, wd_todo_tick := u64 (s.tick + wt) }

/-- Line 421 of `pulsgen_msg_recv`: any incoming message refreshes the
watchdog deadline when the watchdog is armed. -/
def wdRefresh (s : PulsgenState) : PulsgenState :=
  if s.wd_todo_tick ≠ 0 then { s with wd_todo_tick := u64 (s.tick + s.wd_ticks) } else s

/-- Modelled from the spec: the numeric values of the `PULSGEN_MSG_*`
codes are in `mod_pulsgen.h`, not under `src/`; the dispatch of
`pulsgen_msg_recv` needs only ten distinct codes (§4.G). -/
def PULSGEN_MSG_PIN_SETUP : Nat := 0x30

def PULSGEN_MSG_TASK_ADD : Nat := 0x31

def PULSGEN_MSG_ABORT : Nat := 0x32

def PULSGEN_MSG_STATE_GET : Nat := 0x33

def PULSGEN_MSG_TASK_TOGGLES_GET : Nat := 0x34

def PULSGEN_MSG_CNT_GET : Nat := 0x35

def PULSGEN_MSG_CNT_SET : Nat := 0x36

def PULSGEN_MSG_TASKS_DONE_GET : Nat := 0x37

def PULSGEN_MSG_TASKS_DONE_SET : Nat := 0x38

def PULSGEN_MSG_WATCHDOG_SETUP : Nat := 0x39

/-- The ten message codes handled by `pulsgen_msg_recv`. -/
def handledCodes : List Nat :=
  [PULSGEN_MSG_PIN_SETUP, PULSGEN_MSG_TASK_ADD, PULSGEN_MSG_ABORT,
   PULSGEN_MSG_STATE_GET, PULSGEN_MSG_TASK_TOGGLES_GET, PULSGEN_MSG_CNT_GET,
   PULSGEN_MSG_CNT_SET, PULSGEN_MSG_TASKS_DONE_GET, PULSGEN_MSG_TASKS_DONE_SET,
   PULSGEN_MSG_WATCHDOG_SETUP]

/-- `int8_t pulsgen_msg_recv(uint8_t type, uint8_t *msg, uint8_t length)`
of `mod_pulsgen.c` lines 416-467.  The payload is the ten-word view
`v`.  Replies travel through the external `msg_send`; the getter cases
compute their value into a local copy of `msg_buf` and change no engine
state.  The result pairs the new state with the return code. -/
def pulsgen_msg_recv (type : Nat) (v : Nat → Nat) (s : PulsgenState) : PulsgenState × Int :=
  let s := wdRefresh s
  if type = PULSGEN_MSG_PIN_SETUP then (pulsgen_pin_setup (v 0) (v 1) (v 2) (v 3) s, 0)
  else if type = PULSGEN_MSG_TASK_ADD then
    (pulsgen_task_add (v 0) (v 1) (v 2) (v 3) (v 4) (v 5) s, 0)
  else if type = PULSGEN_MSG_ABORT then (pulsgen_abort (v 0) (v 1) s, 0)
  else if type = PULSGEN_MSG_STATE_GET then (s, 0)
  else if type = PULSGEN_MSG_TASK_TOGGLES_GET then (s, 0)
  else if type = PULSGEN_MSG_CNT_GET then (s, 0)
  else if type = PULSGEN_MSG_CNT_SET then (pulsgen_cnt_set (v 0) (i32 (v 1)) s, 0)
  else if type = PULSGEN_MSG_TASKS_DONE_GET then (s, 0)
  else if type = PULSGEN_MSG_TASKS_DONE_SET then (pulsgen_tasks_done_set (v 0) (v 1) s, 0)
  else if type = PULSGEN_MSG_WATCHDOG_SETUP then (pulsgen_watchdog_setup (v 0) (v 1) s, 0)
  else (s, -1)

/-- Raw level of channel `c`'s pin: 1 when the masked data register is
nonzero. -/
def pinLevel (c : Nat) (s : PulsgenState) : Nat :=
  if GPIO_PIN_GET s.ports (s.gen c).port (s.gen c).pin_mask ≠ 0 then 1 else 0

end Pulsgen

namespace Pulsgen

/-! ### Shared record-access lemmas -/

theorem updGen_gen_self (s : PulsgenState) (c : Nat) (g : PulsgenCh) :
    (updGen s c g).gen c = g := by
  simp [updGen]

theorem updGen_gen_of_ne (s : PulsgenState) (c c' : Nat) (g : PulsgenCh) (h : c' ≠ c) :
    (updGen s c g).gen c' = s.gen c' := by
  simp [updGen, h]

/-! ### Concrete scenario states

These are fixed runs of the embedded engine used by several claims'
concrete theorems.  Port 0 pin 3 (mask 8), non-inverted. -/

/-- Channel 2 receives a task while `max_id = 0` (claim C1's setting). -/
def highChState : PulsgenState := pulsgen_task_add 2 0 5 0 0 0 initState

/-- Pin configured on channel 0. -/
def pinState : PulsgenState := pulsgen_pin_setup 0 0 3 0 initState

/-- A 2-toggle task with zero setup/hold on channel 0. -/
def burst0 : PulsgenState := pulsgen_task_add 0 0 2 0 0 0 pinState

/-- One, two, three base-thread passes over `burst0`. -/
def burst1 : PulsgenState := pulsgen_module_base_thread 1 burst0

def burst2 : PulsgenState := pulsgen_module_base_thread 2 burst1

def burst3 : PulsgenState := pulsgen_module_base_thread 3 burst2

/-- Watchdog armed for 1000 ns (24 ticks) at tick 0, then an infinite
task on channel 0 (claim C3's setting). -/
def wdArmed : PulsgenState := pulsgen_task_add 0 0 0 0 0 0 (pulsgen_watchdog_setup 1 1000 pinState)

/-- The pass whose tick 25 exceeds the watchdog deadline 24. -/
def wdExpired : PulsgenState := pulsgen_module_base_thread 25 wdArmed

/-- A task added after expiry, without rearming, and the next pass. -/
def wdReAdd : PulsgenState := pulsgen_task_add 0 0 0 0 0 0 wdExpired

def wdReAddPass : PulsgenState := pulsgen_module_base_thread 26 wdReAdd

/-- A 5-toggle task with 1000 ns halves on channel 0, after its first
edge (pin at the active polarity, 4 toggles pending). -/
def midBurst : PulsgenState := pulsgen_module_base_thread 1 (pulsgen_task_add 0 0 5 1000 1000 0 pinState)

/-- Watchdog armed (deadline 24) and tick advanced to 5 by an empty
pass (claim C8's setting). -/
def wdIdle : PulsgenState := pulsgen_module_base_thread 5 (pulsgen_watchdog_setup 1 1000 initState)

/-! ### C1 -/

/-- C1: refuted on the code.  `task_setup` runs `++max_id`, not
`max_id = c`: installing a task on channel 2 while `max_id = 0` leaves
`max_id = 1 < 2` with channel 2's task flag true, so `max_id` is not an
upper bound on ids with an active task, and the base-thread scan
(`c = max_id, ..., 0`) never services channel 2: a pass at tick 5 leaves
its 5 pending toggles untouched even though its task is due at tick 0. -/
theorem C1_theorem :
    highChState.max_id = 1 ∧
    (highChState.gen 2).task = true ∧
    highChState.max_id < 2 ∧
    (highChState.gen 2).todo_tick = 0 ∧
    ((pulsgen_module_base_thread 5 highChState).gen 2).task_toggles_todo = 5 ∧
    pulsgen_state_get 2 (pulsgen_module_base_thread 5 highChState) = 1 := by
  decide

/-! ### C2 -/

/-- C2: refuted on the code.  After `pulsgen_task_add(0, dir=0, N=2,
0, 0, 0)` on an idle channel with a configured pin, running the base
thread until `pulsgen_state_get 0 = 0` commits exactly 2 edges on the
pin (levels 0, 1, 0 across the passes; `task_toggles_get` reports 2),
but `cnt` grows by `+4 = N²`, not `+2`: line 138 adds the whole
`task_toggles` on every edge. -/
theorem C2_theorem :
    pinLevel 0 burst0 = 0 ∧ pinLevel 0 burst1 = 1 ∧ pinLevel 0 burst2 = 0 ∧
    pulsgen_state_get 0 burst2 = 1 ∧ pulsgen_state_get 0 burst3 = 0 ∧
    pulsgen_task_toggles_get 0 burst3 = 2 ∧
    pulsgen_cnt_get 0 burst0 = 0 ∧
    pulsgen_cnt_get 0 burst3 = 4 := by
  decide

/-! ### C3 -/

/-- C3: refuted on the code.  With the watchdog armed (deadline 24) and
an active task, the pass at tick 25 aborts the task, but
`wd_todo_tick` is left at 24 — the watchdog stays armed.  A task added
afterwards without rearming is aborted by the very next pass through
the same stale deadline; nothing ever zeroes `wd_todo_tick` on expiry. -/
theorem C3_theorem :
    pulsgen_state_get 0 wdArmed = 1 ∧
    pulsgen_state_get 0 wdExpired = 0 ∧
    wdExpired.wd_todo_tick = 24 ∧
    pulsgen_state_get 0 wdReAdd = 1 ∧
    pulsgen_state_get 0 wdReAddPass = 0 ∧
    wdReAddPass.wd_todo_tick = 24 := by
  decide

end Pulsgen

namespace Pulsgen

/-! ### Projection lemmas for the state updaters -/

@[simp] theorem updGen_max_id (s : PulsgenState) (c : Nat) (g : PulsgenCh) :
    (updGen s c g).max_id = s.max_id := rfl

@[simp] theorem updGen_tick (s : PulsgenState) (c : Nat) (g : PulsgenCh) :
    (updGen s c g).tick = s.tick := rfl

@[simp] theorem updGen_wd_ticks (s : PulsgenState) (c : Nat) (g : PulsgenCh) :
    (updGen s c g).wd_ticks = s.wd_ticks := rfl

@[simp] theorem updGen_wd_todo_tick (s : PulsgenState) (c : Nat) (g : PulsgenCh) :
    (updGen s c g).wd_todo_tick = s.wd_todo_tick := rfl

@[simp] theorem updGen_fifo (s : PulsgenState) (c : Nat) (g : PulsgenCh) :
    (updGen s c g).fifo = s.fifo := rfl

@[simp] theorem updGen_fifo_pos (s : PulsgenState) (c : Nat) (g : PulsgenCh) :
    (updGen s c g).fifo_pos = s.fifo_pos := rfl

@[simp] theorem updGen_ports (s : PulsgenState) (c : Nat) (g : PulsgenCh) :
    (updGen s c g).ports = s.ports := rfl

@[simp] theorem updFifo_gen (s : PulsgenState) (c i : Nat) (it : FifoItem) :
    (updFifo s c i it).gen = s.gen := rfl

@[simp] theorem updFifo_max_id (s : PulsgenState) (c i : Nat) (it : FifoItem) :
    (updFifo s c i it).max_id = s.max_id := rfl

@[simp] theorem updFifo_tick (s : PulsgenState) (c i : Nat) (it : FifoItem) :
    (updFifo s c i it).tick = s.tick := rfl

@[simp] theorem updFifo_wd_ticks (s : PulsgenState) (c i : Nat) (it : FifoItem) :
    (updFifo s c i it).wd_ticks = s.wd_ticks := rfl

@[simp] theorem updFifo_wd_todo_tick (s : PulsgenState) (c i : Nat) (it : FifoItem) :
    (updFifo s c i it).wd_todo_tick = s.wd_todo_tick := rfl

@[simp] theorem updFifo_fifo_pos (s : PulsgenState) (c i : Nat) (it : FifoItem) :
    (updFifo s c i it).fifo_pos = s.fifo_pos := rfl

@[simp] theorem updFifo_ports (s : PulsgenState) (c i : Nat) (it : FifoItem) :
    (updFifo s c i it).ports = s.ports := rfl

@[simp] theorem updFifo_fifo_self (s : PulsgenState) (c i : Nat) (it : FifoItem) :
    (updFifo s c i it).fifo c i = it := by
  simp [updFifo]

theorem updFifo_fifo_of_ne (s : PulsgenState) (c i c' i' : Nat) (it : FifoItem)
    (h : ¬(c' = c ∧ i' = i)) : (updFifo s c i it).fifo c' i' = s.fifo c' i' := by
  simp [updFifo, h]

@[simp] theorem updFifoPos_gen (s : PulsgenState) (c p : Nat) :
    (updFifoPos s c p).gen = s.gen := rfl

@[simp] theorem updFifoPos_max_id (s : PulsgenState) (c p : Nat) :
    (updFifoPos s c p).max_id = s.max_id := rfl

@[simp] theorem updFifoPos_tick (s : PulsgenState) (c p : Nat) :
    (updFifoPos s c p).tick = s.tick := rfl

@[simp] theorem updFifoPos_wd_ticks (s : PulsgenState) (c p : Nat) :
    (updFifoPos s c p).wd_ticks = s.wd_ticks := rfl

@[simp] theorem updFifoPos_wd_todo_tick (s : PulsgenState) (c p : Nat) :
    (updFifoPos s c p).wd_todo_tick = s.wd_todo_tick := rfl

@[simp] theorem updFifoPos_fifo (s : PulsgenState) (c p : Nat) :
    (updFifoPos s c p).fifo = s.fifo := rfl

@[simp] theorem updFifoPos_ports (s : PulsgenState) (c p : Nat) :
    (updFifoPos s c p).ports = s.ports := rfl

@[simp] theorem updFifoPos_fifo_pos_self (s : PulsgenState) (c p : Nat) :
    (updFifoPos s c p).fifo_pos c = p := by
  simp [updFifoPos]

theorem updFifoPos_fifo_pos_of_ne (s : PulsgenState) (c p c' : Nat) (h : c' ≠ c) :
    (updFifoPos s c p).fifo_pos c' = s.fifo_pos c' := by
  simp [updFifoPos, h]

/-! ### Characterisation lemmas for `abort` -/

theorem abort_gen_self (c : Nat) (s : PulsgenState) :
    (abort c s).gen c =
      { s.gen c with abort_on_hold := false, abort_on_setup := false, task := false } := by
  by_cases hm : s.max_id ≠ 0 ∧ c = s.max_id <;> simp [abort, updGen, hm]

theorem abort_gen_of_ne (c c' : Nat) (s : PulsgenState) (h : c' ≠ c) :
    (abort c s).gen c' = s.gen c' := by
  by_cases hm : s.max_id ≠ 0 ∧ c = s.max_id
  · simp [abort, updGen, hm, h]
    intro h2
    exact absurd (h2.trans hm.2.symm) h
  · simp [abort, updGen, hm, h]

@[simp] theorem abort_tick (c : Nat) (s : PulsgenState) : (abort c s).tick = s.tick := by
  by_cases hm : s.max_id ≠ 0 ∧ c = s.max_id <;> simp [abort, updGen, hm]

@[simp] theorem abort_wd_ticks (c : Nat) (s : PulsgenState) : (abort c s).wd_ticks = s.wd_ticks := by
  by_cases hm : s.max_id ≠ 0 ∧ c = s.max_id <;> simp [abort, updGen, hm]

@[simp] theorem abort_wd_todo_tick (c : Nat) (s : PulsgenState) :
    (abort c s).wd_todo_tick = s.wd_todo_tick := by
  by_cases hm : s.max_id ≠ 0 ∧ c = s.max_id <;> simp [abort, updGen, hm]

@[simp] theorem abort_ports (c : Nat) (s : PulsgenState) : (abort c s).ports = s.ports := by
  by_cases hm : s.max_id ≠ 0 ∧ c = s.max_id <;> simp [abort, updGen, hm]

@[simp] theorem abort_fifo_pos (c : Nat) (s : PulsgenState) : (abort c s).fifo_pos = s.fifo_pos := by
  by_cases hm : s.max_id ≠ 0 ∧ c = s.max_id <;> simp [abort, updGen, hm]

theorem abort_fifo_used (c i : Nat) (s : PulsgenState) (h : i < PULSGEN_FIFO_SIZE) :
    ((abort c s).fifo c i).used = false := by
  by_cases hm : s.max_id ≠ 0 ∧ c = s.max_id <;> simp [abort, updGen, hm, h]

theorem abort_fifo_of_ne (c c' i : Nat) (s : PulsgenState) (h : c' ≠ c) :
    (abort c s).fifo c' i = s.fifo c' i := by
  by_cases hm : s.max_id ≠ 0 ∧ c = s.max_id
  · simp [abort, updGen, hm, h]
    intro h2
    exact absurd (h2.trans hm.2.symm) h
  · simp [abort, updGen, hm, h]

theorem abort_max_id (c : Nat) (s : PulsgenState) :
    (abort c s).max_id = if s.max_id ≠ 0 ∧ c = s.max_id then s.max_id - 1 else s.max_id := by
  by_cases hm : s.max_id ≠ 0 ∧ c = s.max_id <;> simp [abort, updGen, hm]

/-! ### Characterisation lemmas for `task_setup` -/

theorem task_setup_gen_self (c d tg ps ph sd : Nat) (s : PulsgenState) :
    (task_setup c d tg ps ph sd s).gen c =
      { s.gen c with
        task := true
        task_infinite := u32 tg = 0
        toggles_dir := u32 d
        task_toggles := if u32 tg ≠ 0 then u32 tg else U32 - 1
        task_toggles_todo := if u32 tg ≠ 0 then u32 tg else U32 - 1
        abort_on_hold := false
        abort_on_setup := false
        setup_ticks := u32 (conv_ns (u32 ps))
        hold_ticks := u32 (conv_ns (u32 ph))
        todo_tick := if u32 sd ≠ 0 then u64 (s.tick + conv_ns (u32 sd)) else s.tick } := by
  by_cases hm : c > s.max_id <;> by_cases hd : u32 sd ≠ 0 <;> simp [task_setup, updGen, hm, hd]

theorem task_setup_gen_of_ne (c d tg ps ph sd c' : Nat) (s : PulsgenState) (h : c' ≠ c) :
    (task_setup c d tg ps ph sd s).gen c' = s.gen c' := by
  by_cases hm : c > s.max_id <;> by_cases hd : u32 sd ≠ 0 <;> simp [task_setup, updGen, hm, hd, h]

@[simp] theorem task_setup_tick (c d tg ps ph sd : Nat) (s : PulsgenState) :
    (task_setup c d tg ps ph sd s).tick = s.tick := by
  by_cases hm : c > s.max_id <;> by_cases hd : u32 sd ≠ 0 <;> simp [task_setup, updGen, hm, hd]

@[simp] theorem task_setup_wd_ticks (c d tg ps ph sd : Nat) (s : PulsgenState) :
    (task_setup c d tg ps ph sd s).wd_ticks = s.wd_ticks := by
  by_cases hm : c > s.max_id <;> by_cases hd : u32 sd ≠ 0 <;> simp [task_setup, updGen, hm, hd]

@[simp] theorem task_setup_wd_todo_tick (c d tg ps ph sd : Nat) (s : PulsgenState) :
    (task_setup c d tg ps ph sd s).wd_todo_tick = s.wd_todo_tick := by
  by_cases hm : c > s.max_id <;> by_cases hd : u32 sd ≠ 0 <;> simp [task_setup, updGen, hm, hd]

@[simp] theorem task_setup_fifo (c d tg ps ph sd : Nat) (s : PulsgenState) :
    (task_setup c d tg ps ph sd s).fifo = s.fifo := by
  by_cases hm : c > s.max_id <;> by_cases hd : u32 sd ≠ 0 <;> simp [task_setup, updGen, hm, hd]

@[simp] theorem task_setup_fifo_pos (c d tg ps ph sd : Nat) (s : PulsgenState) :
    (task_setup c d tg ps ph sd s).fifo_pos = s.fifo_pos := by
  by_cases hm : c > s.max_id <;> by_cases hd : u32 sd ≠ 0 <;> simp [task_setup, updGen, hm, hd]

@[simp] theorem task_setup_ports (c d tg ps ph sd : Nat) (s : PulsgenState) :
    (task_setup c d tg ps ph sd s).ports = s.ports := by
  by_cases hm : c > s.max_id <;> by_cases hd : u32 sd ≠ 0 <;> simp [task_setup, updGen, hm, hd]

theorem task_setup_max_id (c d tg ps ph sd : Nat) (s : PulsgenState) :
    (task_setup c d tg ps ph sd s).max_id =
      if c > s.max_id then u8 (s.max_id + 1) else s.max_id := by
  by_cases hm : c > s.max_id <;> by_cases hd : u32 sd ≠ 0 <;> simp [task_setup, updGen, hm, hd]

end Pulsgen

namespace Pulsgen

/-! ### Small numeric lemmas -/

@[simp] theorem u8_zero : u8 0 = 0 := rfl

@[simp] theorem u8_one : u8 1 = 1 := rfl

theorem u8_eq_of_lt {n : Nat} (h : n < 256) : u8 n = n := Nat.mod_eq_of_lt h

theorem u32_eq_of_lt {n : Nat} (h : n < U32) : u32 n = n := Nat.mod_eq_of_lt h

theorem u64_eq_of_lt {n : Nat} (h : n < U64) : u64 n = n := Nat.mod_eq_of_lt h

theorem u8_lt (n : Nat) : u8 n < 256 := Nat.mod_lt _ (by norm_num)

theorem u32_lt (n : Nat) : u32 n < U32 := Nat.mod_lt _ (by norm_num [U32])

/-- The 64-bit product `ns * TIMER_FREQUENCY_MHZ` never wraps for a
`uint32_t` input, so `conv_ns` is the exact floor. -/
theorem conv_ns_eq (ns : Nat) (h : ns < U32) :
    conv_ns ns = ns * TIMER_FREQUENCY_MHZ / 1000 := by
  have hlt : ns * TIMER_FREQUENCY_MHZ < U64 := by
    have h2 : ns * TIMER_FREQUENCY_MHZ < U32 * TIMER_FREQUENCY_MHZ :=
      Nat.mul_lt_mul_of_lt_of_le h (Nat.le_refl _) (by norm_num [TIMER_FREQUENCY_MHZ])
    calc ns * TIMER_FREQUENCY_MHZ < U32 * TIMER_FREQUENCY_MHZ := h2
      _ ≤ U64 := by norm_num [U32, U64, TIMER_FREQUENCY_MHZ]
  rw [conv_ns, Nat.mod_eq_of_lt hlt]

end Pulsgen

namespace Pulsgen

/-! ### C4 -/

/-- C4 counterexample: after the first edge of a 5-toggle burst the pin
of channel 0 is at the active polarity; `pulsgen_abort(0, on_hold=1)`
then terminates the task immediately (state drops to 0 with 4 toggles
still pending) and the pin stays at the active level — the claim said
the active half-period completes and the final level is inactive. -/
theorem C4_counterexample :
    pinLevel 0 midBurst = 1 ∧
    (midBurst.gen 0).pin_inverted = 0 ∧
    pulsgen_state_get 0 midBurst = 1 ∧
    (midBurst.gen 0).task_toggles_todo = 4 ∧
    pulsgen_state_get 0 (pulsgen_abort 0 1 midBurst) = 0 ∧
    pinLevel 0 (pulsgen_abort 0 1 midBurst) = 1 := by
  decide

/-- C4 (amended): `pulsgen_abort(c, on_hold=1)` on a pin at the ACTIVE
polarity aborts the task immediately, touching no pin; when the pin is
at the INACTIVE polarity it only latches `abort_on_hold`, and the next
due commit of `pulsgen_module_base_thread`'s scan body (`serviceCh`)
drives the pin to the active level and then aborts the task. -/
theorem C4_theorem (c : Nat) (s : PulsgenState) (hc : c < 256) :
    (GPIO_PIN_GET s.ports (s.gen c).port (s.gen c).pin_mask ^^^ (s.gen c).pin_inverted ≠ 0 →
      ((pulsgen_abort c 1 s).gen c).task = false ∧ (pulsgen_abort c 1 s).ports = s.ports) ∧
    (GPIO_PIN_GET s.ports (s.gen c).port (s.gen c).pin_mask ^^^ (s.gen c).pin_inverted = 0 →
      (pulsgen_abort c 1 s).gen c = { s.gen c with abort_on_hold := true } ∧
      (pulsgen_abort c 1 s).ports = s.ports) ∧
    ((s.gen c).task = true → (s.gen c).abort_on_hold = true →
      ¬ s.tick < (s.gen c).todo_tick →
      ¬((s.gen c).task_toggles_todo = 0 ∧ (s.gen c).task_infinite = false) →
      GPIO_PIN_GET s.ports (s.gen c).port (s.gen c).pin_mask ^^^ (s.gen c).pin_inverted = 0 →
      ((serviceCh false c s).gen c).task = false ∧
      (serviceCh false c s).ports = GPIO_PIN_SET s.ports (s.gen c).port (s.gen c).pin_mask) := by
  have hc8 : u8 c = c := u8_eq_of_lt hc
  refine ⟨fun hp => ?_, fun hp => ?_, fun htask hl hdue hrem hp => ?_⟩
  · rw [Ne, Nat.xor_eq_zero] at hp
    simp [pulsgen_abort, hc8, hp, abort_gen_self, abort_ports]
  · rw [Nat.xor_eq_zero] at hp
    simp [pulsgen_abort, hc8, hp, updGen_gen_self]
  · rw [Nat.xor_eq_zero] at hp
    constructor
    · simp [serviceCh, tallyToggles, htask, hdue, hrem, hp, hl, abort_gen_self, updGen_gen_self]
    · simp [serviceCh, tallyToggles, htask, hdue, hrem, hp, hl, abort_ports]

theorem C4_witness :
    (0 : Nat) < 256 ∧
    GPIO_PIN_GET midBurst.ports (midBurst.gen 0).port (midBurst.gen 0).pin_mask ^^^
        (midBurst.gen 0).pin_inverted ≠ 0 ∧
    ((pulsgen_abort 0 1 midBurst).gen 0).task = false := by
  refine ⟨by decide, by decide, ((C4_theorem 0 midBurst (by decide)).1 (by decide)).1⟩

/-! ### C5 -/

/-- C5 counterexample: with zero setup/hold durations (tick conversion
0) the passes at ticks 1 and 2 each commit an edge on channel 0
(`task_toggles_todo` drops 2, 1, 0), yet `todo_tick` stays 0 across
both commits — `due_tick` does NOT strictly increase. -/
theorem C5_counterexample :
    (burst0.gen 0).setup_ticks = 0 ∧ (burst0.gen 0).hold_ticks = 0 ∧
    (burst0.gen 0).task_toggles_todo = 2 ∧
    (burst1.gen 0).task_toggles_todo = 1 ∧
    (burst2.gen 0).task_toggles_todo = 0 ∧
    (burst1.gen 0).todo_tick = 0 ∧
    (burst2.gen 0).todo_tick = 0 := by
  decide

/-- C5 (amended): an edge commit with no pending latch advances
`todo_tick` by exactly the selected half-period tick count (modulo
2^64); absent u64 overflow it therefore never decreases, and it
strictly increases exactly when that count is nonzero — for a zero
tick conversion consecutive commits share the same `due_tick`. -/
theorem C5_theorem (c : Nat) (s : PulsgenState)
    (htask : (s.gen c).task = true)
    (hdue : ¬ s.tick < (s.gen c).todo_tick)
    (hrem : ¬((s.gen c).task_toggles_todo = 0 ∧ (s.gen c).task_infinite = false))
    (hsetup : (s.gen c).abort_on_setup = false)
    (hhold : (s.gen c).abort_on_hold = false) :
    ((serviceCh false c s).gen c).todo_tick =
      u64 ((s.gen c).todo_tick +
        (if GPIO_PIN_GET s.ports (s.gen c).port (s.gen c).pin_mask ^^^ (s.gen c).pin_inverted ≠ 0
         then (s.gen c).setup_ticks else (s.gen c).hold_ticks)) ∧
    ((s.gen c).todo_tick +
        (if GPIO_PIN_GET s.ports (s.gen c).port (s.gen c).pin_mask ^^^ (s.gen c).pin_inverted ≠ 0
         then (s.gen c).setup_ticks else (s.gen c).hold_ticks) < U64 →
      (s.gen c).todo_tick ≤ ((serviceCh false c s).gen c).todo_tick ∧
      (0 < (if GPIO_PIN_GET s.ports (s.gen c).port (s.gen c).pin_mask ^^^ (s.gen c).pin_inverted ≠ 0
            then (s.gen c).setup_ticks else (s.gen c).hold_ticks) →
        (s.gen c).todo_tick < ((serviceCh false c s).gen c).todo_tick)) := by
  have hval : ((serviceCh false c s).gen c).todo_tick =
      u64 ((s.gen c).todo_tick +
        (if GPIO_PIN_GET s.ports (s.gen c).port (s.gen c).pin_mask ^^^ (s.gen c).pin_inverted ≠ 0
         then (s.gen c).setup_ticks else (s.gen c).hold_ticks)) := by
    by_cases hp : GPIO_PIN_GET s.ports (s.gen c).port (s.gen c).pin_mask ^^^ (s.gen c).pin_inverted ≠ 0
    · simp [serviceCh, tallyToggles, updGen_gen_self, htask, hdue, hrem, hsetup, hhold, hp]
    · simp [serviceCh, tallyToggles, updGen_gen_self, htask, hdue, hrem, hsetup, hhold, hp]
  refine ⟨hval, fun hlt => ?_⟩
  rw [hval, u64, Nat.mod_eq_of_lt hlt]
  omega

theorem C5_witness :
    (burst1.gen 0).task = true ∧
    ((serviceCh false 0 burst1).gen 0).todo_tick =
      u64 ((burst1.gen 0).todo_tick +
        (if GPIO_PIN_GET burst1.ports (burst1.gen 0).port (burst1.gen 0).pin_mask ^^^
              (burst1.gen 0).pin_inverted ≠ 0
         then (burst1.gen 0).setup_ticks else (burst1.gen 0).hold_ticks)) := by
  refine ⟨by decide,
    (C5_theorem 0 burst1 (by decide) (by decide) (by decide) (by decide) (by decide)).1⟩

/-! ### C6 -/

/-- C6 counterexample: aborting the 2-toggle task of `burst0`
immediately (pin at inactive polarity, `on_hold = 0`) leaves
`task = false` with the FIFO head slot released, but
`task_toggles_todo = 2`, not 0: `abort()` never zeroes the remaining
toggle count. -/
theorem C6_counterexample :
    pulsgen_state_get 0 (pulsgen_abort 0 0 burst0) = 0 ∧
    ((pulsgen_abort 0 0 burst0).fifo 0 ((pulsgen_abort 0 0 burst0).fifo_pos 0)).used = false ∧
    ((pulsgen_abort 0 0 burst0).gen 0).task_toggles_todo = 2 := by
  decide

end Pulsgen

namespace Pulsgen

/-! ### C8 -/

/-- C8 counterexample: with the watchdog armed (`wd_todo_tick = 24`,
`wd_ticks = 24`, tick 5), an unknown message type (255) makes
`pulsgen_msg_recv` return -1 but still rewrites the armed deadline to
`tick + wd_ticks = 29` — the claim said no watchdog variable changes. -/
theorem C8_counterexample :
    (255 : Nat) ∉ handledCodes ∧
    wdIdle.wd_todo_tick = 24 ∧
    (pulsgen_msg_recv 255 (fun _ => 0) wdIdle).2 = -1 ∧
    (pulsgen_msg_recv 255 (fun _ => 0) wdIdle).1.wd_todo_tick = 29 := by
  decide

/-- C8 (amended): an unhandled message type returns the -1 sentinel and
leaves every channel field, FIFO slot, pin register and `wd_ticks`
untouched, but — like every receive path — it refreshes the armed
watchdog deadline to `tick + wd_ticks` first (line 421 runs before the
dispatch switch). -/
theorem C8_theorem (type : Nat) (v : Nat → Nat) (s : PulsgenState)
    (h : type ∉ handledCodes) :
    (pulsgen_msg_recv type v s).2 = -1 ∧
    (pulsgen_msg_recv type v s).1.gen = s.gen ∧
    (pulsgen_msg_recv type v s).1.fifo = s.fifo ∧
    (pulsgen_msg_recv type v s).1.fifo_pos = s.fifo_pos ∧
    (pulsgen_msg_recv type v s).1.ports = s.ports ∧
    (pulsgen_msg_recv type v s).1.max_id = s.max_id ∧
    (pulsgen_msg_recv type v s).1.tick = s.tick ∧
    (pulsgen_msg_recv type v s).1.wd_ticks = s.wd_ticks ∧
    (pulsgen_msg_recv type v s).1.wd_todo_tick =
      (if s.wd_todo_tick ≠ 0 then u64 (s.tick + s.wd_ticks) else s.wd_todo_tick) := by
  simp only [handledCodes, List.mem_cons, List.not_mem_nil, or_false, not_or] at h
  obtain ⟨h1, h2, h3, h4, h5, h6, h7, h8, h9, h10⟩ := h
  by_cases hw : s.wd_todo_tick ≠ 0 <;>
    simp [pulsgen_msg_recv, wdRefresh, hw, h1, h2, h3, h4, h5, h6, h7, h8, h9, h10]

theorem C8_witness :
    (255 : Nat) ∉ handledCodes ∧ (pulsgen_msg_recv 255 (fun _ => 0) wdIdle).2 = -1 := by
  refine ⟨by decide, (C8_theorem 255 (fun _ => 0) wdIdle (by decide)).1⟩

/-! ### C9 -/

/-- C9: every nanosecond-to-tick conversion of the engine — the
`setup_ticks` and `hold_ticks` stored by `task_setup`, the start-delay
added to `due_tick`, and `wd_ticks` of `pulsgen_watchdog_setup` —
equals the exact integer `ns * TIMER_FREQUENCY_MHZ / 1000` (the 64-bit
intermediate never wraps for a `uint32_t` input), reduced modulo 2^32
exactly where the result lands in a `uint32_t` field. -/
theorem C9_theorem (ns : Nat) (hns : ns < U32) :
    conv_ns ns = ns * TIMER_FREQUENCY_MHZ / 1000 ∧
    (∀ c d tg ph sd s, ((task_setup c d tg ns ph sd s).gen c).setup_ticks
        = u32 (ns * TIMER_FREQUENCY_MHZ / 1000)) ∧
    (∀ c d tg ps sd s, ((task_setup c d tg ps ns sd s).gen c).hold_ticks
        = u32 (ns * TIMER_FREQUENCY_MHZ / 1000)) ∧
    (∀ c d tg ps ph s (_ : s.tick < U64), ((task_setup c d tg ps ph ns s).gen c).todo_tick
        = u64 (s.tick + ns * TIMER_FREQUENCY_MHZ / 1000)) ∧
    (∀ e t s (_ : u8 e ≠ 0) (_ : t % U32 = ns),
      (pulsgen_watchdog_setup e t s).wd_ticks = ns * TIMER_FREQUENCY_MHZ / 1000) := by
  have hu : u32 ns = ns := u32_eq_of_lt hns
  have hc : conv_ns ns = ns * TIMER_FREQUENCY_MHZ / 1000 := conv_ns_eq ns hns
  refine ⟨hc, fun c d tg ph sd s => ?_, fun c d tg ps sd s => ?_,
    fun c d tg ps ph s hs => ?_, fun e t s he ht => ?_⟩
  · rw [task_setup_gen_self]
    simp [hu, hc]
  · rw [task_setup_gen_self]
    simp [hu, hc]
  · rw [task_setup_gen_self]
    by_cases hz : ns = 0
    · subst hz
      simp [hc, u64_eq_of_lt hs]
      intro h
      exact absurd rfl h
    · have hz' : u32 ns ≠ 0 := by rw [hu]; exact hz
      simp [hz', hu, hc]
      intro h
      exact absurd h hz
  · have ht' : u32 t = ns := ht
    simp [pulsgen_watchdog_setup, he, ht', hc]

theorem C9_witness :
    (25000 : Nat) < U32 ∧ conv_ns 25000 = 25000 * TIMER_FREQUENCY_MHZ / 1000 := by
  refine ⟨by decide, (C9_theorem 25000 (by decide)).1⟩

/-! ### C10 -/

/-- C10: when a pending abort latch fires during an edge commit of the
base-thread scan body (`serviceCh`), the abort is followed in the same
pass by the countdown lines 134-138: `task_toggles_todo` is still
decremented (as a u32) and `cnt` still gains `±task_toggles`, so
`pulsgen_task_toggles_get` afterwards reports one more toggle —
the latch-path abort is not atomic with respect to these counters. -/
theorem C10_theorem (c : Nat) (s : PulsgenState) (hc : c < 256)
    (htodo : (s.gen c).task_toggles_todo < U32)
    (htask : (s.gen c).task = true)
    (hdue : ¬ s.tick < (s.gen c).todo_tick)
    (hrem : ¬((s.gen c).task_toggles_todo = 0 ∧ (s.gen c).task_infinite = false))
    (hlatch : (GPIO_PIN_GET s.ports (s.gen c).port (s.gen c).pin_mask ^^^ (s.gen c).pin_inverted ≠ 0
                ∧ (s.gen c).abort_on_setup = true)
            ∨ (GPIO_PIN_GET s.ports (s.gen c).port (s.gen c).pin_mask ^^^ (s.gen c).pin_inverted = 0
                ∧ (s.gen c).abort_on_hold = true)) :
    ((serviceCh false c s).gen c).task = false ∧
    ((serviceCh false c s).gen c).task_toggles_todo =
      u32 ((s.gen c).task_toggles_todo + (U32 - 1)) ∧
    ((serviceCh false c s).gen c).cnt =
      u32 ((s.gen c).cnt +
        (s.gen c).task_toggles * (if (s.gen c).toggles_dir ≠ 0 then U32 - 1 else 1)) ∧
    ((serviceCh false c s).gen c).task_toggles = (s.gen c).task_toggles ∧
    pulsgen_task_toggles_get c (serviceCh false c s) =
      u32 (pulsgen_task_toggles_get c s + 1) := by
  have hc8 : u8 c = c := u8_eq_of_lt hc
  have hmain : ((serviceCh false c s).gen c).task = false ∧
      ((serviceCh false c s).gen c).task_toggles_todo =
        u32 ((s.gen c).task_toggles_todo + (U32 - 1)) ∧
      ((serviceCh false c s).gen c).cnt =
        u32 ((s.gen c).cnt +
          (s.gen c).task_toggles * (if (s.gen c).toggles_dir ≠ 0 then U32 - 1 else 1)) ∧
      ((serviceCh false c s).gen c).task_toggles = (s.gen c).task_toggles := by
    rcases hlatch with ⟨hp, hl⟩ | ⟨hp, hl⟩
    · rw [Ne, Nat.xor_eq_zero] at hp
      by_cases hd : (s.gen c).toggles_dir = 0 <;>
        simp [serviceCh, tallyToggles, htask, hdue, hrem, hp, hl, hd, abort_gen_self,
          updGen_gen_self]
    · rw [Nat.xor_eq_zero] at hp
      by_cases hd : (s.gen c).toggles_dir = 0 <;>
        simp [serviceCh, tallyToggles, htask, hdue, hrem, hp, hl, hd, abort_gen_self,
          updGen_gen_self]
  refine ⟨hmain.1, hmain.2.1, hmain.2.2.1, hmain.2.2.2, ?_⟩
  rw [pulsgen_task_toggles_get, pulsgen_task_toggles_get, hc8]
  rw [hmain.2.1, hmain.2.2.2]
  have hU : U32 = 4294967296 := by norm_num [U32]
  rw [u32, u32, u32, u32, hU]
  omega

/-- `midBurst` with the setup latch armed by `pulsgen_abort(0, 0)` (its
pin is active) and the tick advanced past the 24-tick deadline, as
`pulsgen_module_base_thread 30` would set it just before the scan. -/
def latchDue : PulsgenState := { pulsgen_abort 0 0 midBurst with tick := 30 }

theorem C10_witness :
    (latchDue.gen 0).abort_on_setup = true ∧
    ((serviceCh false 0 latchDue).gen 0).task = false ∧
    ((serviceCh false 0 latchDue).gen 0).task_toggles_todo =
      u32 ((latchDue.gen 0).task_toggles_todo + (U32 - 1)) := by
  refine ⟨by decide, ?_, ?_⟩
  · exact (C10_theorem 0 latchDue (by decide) (by decide) (by decide)
      (by decide) (by decide) (by decide)).1
  · exact (C10_theorem 0 latchDue (by decide) (by decide) (by decide)
      (by decide) (by decide) (by decide)).2.1

end Pulsgen

namespace Pulsgen

/-! ### Reachable states

An operation type covering every public entry point that mutates the
engine state, and runs of operation lists from the power-on state. -/

inductive PulsgenOp where
  | pinSetupOp (c port pin inverted : Nat)
  | taskAddOp (c d tg ps ph sd : Nat)
  | abortOp (c on_hold : Nat)
  | baseThreadOp (t : Nat)
  | watchdogOp (enable time : Nat)
  | cntSetOp (c : Nat) (v : Int)
  | tasksDoneSetOp (c v : Nat)
  | msgRecvOp (type : Nat) (v : Nat → Nat)

def applyOp (s : PulsgenState) : PulsgenOp → PulsgenState
  | .pinSetupOp c port pin inv => pulsgen_pin_setup c port pin inv s
  | .taskAddOp c d tg ps ph sd => pulsgen_task_add c d tg ps ph sd s
  | .abortOp c oh => pulsgen_abort c oh s
  | .baseThreadOp t => pulsgen_module_base_thread t s
  | .watchdogOp e t => pulsgen_watchdog_setup e t s
  | .cntSetOp c v => pulsgen_cnt_set c v s
  | .tasksDoneSetOp c v => pulsgen_tasks_done_set c v s
  | .msgRecvOp ty v => (pulsgen_msg_recv ty v s).1

def runOps (ops : List PulsgenOp) : PulsgenState := ops.foldl applyOp initState

/-- The head-slot invariant: every FIFO head index is in range, and an
idle channel's head slot is free. -/
def C6Inv (s : PulsgenState) : Prop :=
  (∀ c, s.fifo_pos c < PULSGEN_FIFO_SIZE) ∧
  (∀ c, (s.gen c).task = false → (s.fifo c (s.fifo_pos c)).used = false)

theorem C6Inv_initState : C6Inv initState := by
  constructor <;> intro c <;> simp [initState, zeroItem, PULSGEN_FIFO_SIZE]

theorem C6Inv_abort (c : Nat) (s : PulsgenState) (h : C6Inv s) : C6Inv (abort c s) := by
  obtain ⟨hpos, hhead⟩ := h
  refine ⟨fun c' => by simpa using hpos c', fun c' ht => ?_⟩
  by_cases hcc : c' = c
  · subst hcc
    rw [abort_fifo_pos]
    exact abort_fifo_used c' (s.fifo_pos c') s (hpos c')
  · rw [abort_fifo_pos, abort_fifo_of_ne c c' _ s hcc]
    rw [abort_gen_of_ne c c' s hcc] at ht
    exact hhead c' ht

theorem C6Inv_task_setup (c d tg ps ph sd : Nat) (s : PulsgenState) (h : C6Inv s) :
    C6Inv (task_setup c d tg ps ph sd s) := by
  obtain ⟨hpos, hhead⟩ := h
  refine ⟨fun c' => by simpa using hpos c', fun c' ht => ?_⟩
  by_cases hcc : c' = c
  · subst hcc
    rw [task_setup_gen_self] at ht
    exact absurd ht (by simp)
  · rw [task_setup_gen_of_ne c d tg ps ph sd c' s hcc] at ht
    rw [task_setup_fifo, task_setup_fifo_pos]
    exact hhead c' ht

theorem pin_setup_fifo (c port pin inv : Nat) (s : PulsgenState) :
    (pulsgen_pin_setup c port pin inv s).fifo = s.fifo := by
  unfold pulsgen_pin_setup
  dsimp only
  split <;> split <;> rfl

theorem pin_setup_fifo_pos (c port pin inv : Nat) (s : PulsgenState) :
    (pulsgen_pin_setup c port pin inv s).fifo_pos = s.fifo_pos := by
  unfold pulsgen_pin_setup
  dsimp only
  split <;> split <;> rfl

theorem pin_setup_gen_task (c port pin inv c' : Nat) (s : PulsgenState) :
    ((pulsgen_pin_setup c port pin inv s).gen c').task = (s.gen c').task := by
  unfold pulsgen_pin_setup
  dsimp only
  by_cases hcc : c' = u8 c <;> split <;> split <;> simp [updGen, hcc]

theorem C6Inv_pin_setup (c port pin inv : Nat) (s : PulsgenState) (h : C6Inv s) :
    C6Inv (pulsgen_pin_setup c port pin inv s) := by
  obtain ⟨hpos, hhead⟩ := h
  refine ⟨fun c' => ?_, fun c' ht => ?_⟩
  · rw [pin_setup_fifo_pos]
    exact hpos c'
  · rw [pin_setup_fifo, pin_setup_fifo_pos]
    rw [pin_setup_gen_task] at ht
    exact hhead c' ht

end Pulsgen

namespace Pulsgen

theorem retire_p_lt (x : Nat) :
    (if PULSGEN_FIFO_SIZE ≤ u8 (x + 1) then 0 else u8 (x + 1)) < PULSGEN_FIFO_SIZE := by
  split
  · norm_num [PULSGEN_FIFO_SIZE]
  · next hle =>
      norm_num [PULSGEN_FIFO_SIZE] at hle ⊢
      omega

theorem C6Inv_task_add (c d tg ps ph sd : Nat) (s : PulsgenState) (h : C6Inv s) :
    C6Inv (pulsgen_task_add c d tg ps ph sd s) := by
  obtain ⟨hpos, hhead⟩ := h
  by_cases hb : (s.gen c).task
  · unfold pulsgen_task_add
    rw [if_pos hb]
    cases hf : (fifoScan PULSGEN_FIFO_SIZE (s.fifo_pos c + 1)).find?
        (fun pos => !(s.fifo c pos).used) with
    | none => exact ⟨hpos, hhead⟩
    | some pos =>
        refine ⟨fun c' => by simpa using hpos c', fun c' ht => ?_⟩
        simp only [updFifo_gen] at ht
        by_cases hcc : c' = c
        · subst hcc
          exact absurd ht (by simp [hb])
        · rw [updFifo_fifo_pos, updFifo_fifo_of_ne _ _ _ _ _ _ (by tauto)]
          exact hhead c' ht
  · unfold pulsgen_task_add
    rw [if_neg hb]
    refine ⟨fun c' => by simpa using hpos c', fun c' ht => ?_⟩
    by_cases hcc : c' = c
    · subst hcc
      rw [task_setup_gen_self] at ht
      exact absurd ht (by simp)
    · rw [task_setup_gen_of_ne _ _ _ _ _ _ _ _ hcc] at ht
      simp only [updFifo_gen] at ht
      rw [task_setup_fifo, task_setup_fifo_pos]
      simp only [updFifo_fifo_pos]
      rw [updFifo_fifo_of_ne _ _ _ _ _ _ (by tauto)]
      exact hhead c' ht

theorem C6Inv_retireStep (c : Nat) (s : PulsgenState) (h : C6Inv s) :
    C6Inv (retireStep c s) := by
  obtain ⟨hpos, hhead⟩ := h
  unfold retireStep
  simp only [updFifo_fifo_pos]
  obtain ⟨p, hP, hplt⟩ :
      ∃ p, (if PULSGEN_FIFO_SIZE ≤ u8 (s.fifo_pos c + 1) then 0
            else u8 (s.fifo_pos c + 1)) = p ∧ p < PULSGEN_FIFO_SIZE :=
    ⟨_, rfl, retire_p_lt _⟩
  rw [hP]
  split
  · next hu =>
      refine ⟨fun c' => ?_, fun c' ht => ?_⟩
      · rw [task_setup_fifo_pos]
        by_cases hcc : c' = c
        · subst hcc
          simp only [updFifoPos_fifo_pos_self]
          exact hplt
        · rw [updFifoPos_fifo_pos_of_ne _ _ _ _ hcc]
          simp only [updFifo_fifo_pos]
          exact hpos c'
      · by_cases hcc : c' = c
        · subst hcc
          rw [task_setup_gen_self] at ht
          exact absurd ht (by simp)
        · rw [task_setup_gen_of_ne _ _ _ _ _ _ _ _ hcc] at ht
          simp only [updFifoPos_gen, updFifo_gen] at ht
          rw [task_setup_fifo, task_setup_fifo_pos]
          simp only [updFifoPos_fifo]
          rw [updFifoPos_fifo_pos_of_ne _ _ _ _ hcc]
          simp only [updFifo_fifo_pos]
          rw [updFifo_fifo_of_ne _ _ _ _ _ _ (by tauto)]
          exact hhead c' ht
  · next hu =>
      split <;>
      · refine ⟨fun c' => ?_, fun c' ht => ?_⟩
        · simp only [updGen_fifo_pos]
          by_cases hcc : c' = c
          · subst hcc
            simp only [updFifoPos_fifo_pos_self]
            exact hplt
          · rw [updFifoPos_fifo_pos_of_ne _ _ _ _ hcc]
            simp only [updFifo_fifo_pos]
            exact hpos c'
        · by_cases hcc : c' = c
          · subst hcc
            simp only [updGen_fifo, updGen_fifo_pos, updFifoPos_fifo, updFifoPos_fifo_pos_self]
            simpa using hu
          · simp only [updGen_fifo, updGen_fifo_pos, updFifoPos_fifo] at ht ⊢
            rw [updGen_gen_of_ne _ _ _ _ hcc] at ht
            simp only [updFifoPos_gen, updFifo_gen] at ht
            rw [updFifoPos_fifo_pos_of_ne _ _ _ _ hcc]
            simp only [updFifo_fifo_pos]
            rw [updFifo_fifo_of_ne _ _ _ _ _ _ (by tauto)]
            exact hhead c' ht

theorem C6Inv_tallyToggles (c : Nat) (s : PulsgenState) (h : C6Inv s) :
    C6Inv (tallyToggles c s) := by
  obtain ⟨hpos, hhead⟩ := h
  refine ⟨fun c' => by simpa [tallyToggles] using hpos c', fun c' ht => ?_⟩
  simp only [tallyToggles] at ht ⊢
  by_cases hcc : c' = c
  · subst hcc
    rw [updGen_gen_self] at ht
    simp only [updGen_fifo, updGen_fifo_pos]
    exact hhead _ ht
  · rw [updGen_gen_of_ne _ _ _ _ hcc] at ht
    simp only [updGen_fifo, updGen_fifo_pos]
    exact hhead _ ht

end Pulsgen

namespace Pulsgen

theorem C6Inv_serviceCh (ab : Bool) (c : Nat) (s : PulsgenState) (h : C6Inv s) :
    C6Inv (serviceCh ab c s) := by
  unfold serviceCh
  by_cases h1 : ¬(s.gen c).task
  · rw [if_pos h1]
    exact h
  rw [if_neg h1]
  by_cases h2 : ab = true
  · rw [if_pos h2]
    exact C6Inv_abort c s h
  rw [if_neg h2]
  by_cases h3 : s.tick < (s.gen c).todo_tick
  · rw [if_pos h3]
    exact h
  rw [if_neg h3]
  by_cases h4 : (s.gen c).task_toggles_todo = 0 ∧ ¬(s.gen c).task_infinite
  · rw [if_pos h4]
    exact C6Inv_retireStep c s h
  rw [if_neg h4]
  dsimp only
  by_cases h5 : GPIO_PIN_GET s.ports (s.gen c).port (s.gen c).pin_mask ^^^ (s.gen c).pin_inverted ≠ 0
  · rw [if_pos h5]
    apply C6Inv_tallyToggles
    dsimp only
    by_cases h6 : (s.gen c).abort_on_setup
    · rw [if_pos h6]
      exact C6Inv_abort c _ h
    · rw [if_neg h6]
      obtain ⟨hpos, hhead⟩ := h
      refine ⟨fun c' => by simpa using hpos c', fun c' ht => ?_⟩
      by_cases hcc : c' = c
      · subst hcc
        rw [updGen_gen_self] at ht
        simp only at ht
        rw [Bool.not_eq_true] at h1
        simp at h1
        rw [h1] at ht
        cases ht
      · rw [updGen_gen_of_ne _ _ _ _ hcc] at ht
        simp only [updGen_fifo, updGen_fifo_pos] at ht ⊢
        exact hhead c' ht
  · rw [if_neg h5]
    apply C6Inv_tallyToggles
    dsimp only
    by_cases h6 : (s.gen c).abort_on_hold
    · rw [if_pos h6]
      exact C6Inv_abort c _ h
    · rw [if_neg h6]
      obtain ⟨hpos, hhead⟩ := h
      refine ⟨fun c' => by simpa using hpos c', fun c' ht => ?_⟩
      by_cases hcc : c' = c
      · subst hcc
        rw [updGen_gen_self] at ht
        simp only at ht
        rw [Bool.not_eq_true] at h1
        simp at h1
        rw [h1] at ht
        cases ht
      · rw [updGen_gen_of_ne _ _ _ _ hcc] at ht
        simp only [updGen_fifo, updGen_fifo_pos] at ht ⊢
        exact hhead c' ht

theorem C6Inv_foldl (b : Bool) (l : List Nat) (s : PulsgenState) (h : C6Inv s) :
    C6Inv (l.foldl (fun st c => serviceCh b c st) s) := by
  induction l generalizing s with
  | nil => exact h
  | cons a l ih => exact ih _ (C6Inv_serviceCh b a s h)

theorem C6Inv_base_thread (t : Nat) (s : PulsgenState) (h : C6Inv s) :
    C6Inv (pulsgen_module_base_thread t s) := by
  unfold pulsgen_module_base_thread
  dsimp only
  exact C6Inv_foldl _ _ _ h

theorem C6Inv_updGen (c : Nat) (g : PulsgenCh) (s : PulsgenState) (h : C6Inv s)
    (hg : g.task = (s.gen c).task) : C6Inv (updGen s c g) := by
  obtain ⟨hpos, hhead⟩ := h
  refine ⟨fun c' => by simpa using hpos c', fun c' ht => ?_⟩
  simp only [updGen_fifo, updGen_fifo_pos]
  by_cases hcc : c' = c
  · subst hcc
    rw [updGen_gen_self] at ht
    rw [hg] at ht
    exact hhead _ ht
  · rw [updGen_gen_of_ne _ _ _ _ hcc] at ht
    exact hhead _ ht

theorem C6Inv_pulsgen_abort (c oh : Nat) (s : PulsgenState) (h : C6Inv s) :
    C6Inv (pulsgen_abort c oh s) := by
  unfold pulsgen_abort
  dsimp only
  split
  · split
    · exact C6Inv_abort _ _ h
    · exact C6Inv_updGen _ _ _ h rfl
  · split
    · exact C6Inv_abort _ _ h
    · exact C6Inv_updGen _ _ _ h rfl

theorem C6Inv_watchdog (e t : Nat) (s : PulsgenState) (h : C6Inv s) :
    C6Inv (pulsgen_watchdog_setup e t s) := by
  unfold pulsgen_watchdog_setup
  dsimp only
  split
  · exact h
  · exact h

theorem C6Inv_cnt_set (c : Nat) (v : Int) (s : PulsgenState) (h : C6Inv s) :
    C6Inv (pulsgen_cnt_set c v s) :=
  C6Inv_updGen _ _ _ h rfl

theorem C6Inv_tasks_done_set (c v : Nat) (s : PulsgenState) (h : C6Inv s) :
    C6Inv (pulsgen_tasks_done_set c v s) :=
  C6Inv_updGen _ _ _ h rfl

theorem C6Inv_wdRefresh (s : PulsgenState) (h : C6Inv s) : C6Inv (wdRefresh s) := by
  unfold wdRefresh
  split
  · exact h
  · exact h

theorem C6Inv_msg_recv (ty : Nat) (v : Nat → Nat) (s : PulsgenState) (h : C6Inv s) :
    C6Inv (pulsgen_msg_recv ty v s).1 := by
  have hw : C6Inv (wdRefresh s) := C6Inv_wdRefresh s h
  unfold pulsgen_msg_recv
  dsimp only
  split
  · exact C6Inv_pin_setup _ _ _ _ _ hw
  split
  · exact C6Inv_task_add _ _ _ _ _ _ _ hw
  split
  · exact C6Inv_pulsgen_abort _ _ _ hw
  split
  · exact hw
  split
  · exact hw
  split
  · exact hw
  split
  · exact C6Inv_cnt_set _ _ _ hw
  split
  · exact hw
  split
  · exact C6Inv_tasks_done_set _ _ _ hw
  split
  · exact C6Inv_watchdog _ _ _ hw
  · exact hw

theorem C6Inv_applyOp (s : PulsgenState) (op : PulsgenOp) (h : C6Inv s) :
    C6Inv (applyOp s op) := by
  cases op with
  | pinSetupOp c port pin inv => exact C6Inv_pin_setup _ _ _ _ _ h
  | taskAddOp c d tg ps ph sd => exact C6Inv_task_add _ _ _ _ _ _ _ h
  | abortOp c oh => exact C6Inv_pulsgen_abort _ _ _ h
  | baseThreadOp t => exact C6Inv_base_thread _ _ h
  | watchdogOp e t => exact C6Inv_watchdog _ _ _ h
  | cntSetOp c v => exact C6Inv_cnt_set _ _ _ h
  | tasksDoneSetOp c v => exact C6Inv_tasks_done_set _ _ _ h
  | msgRecvOp ty v => exact C6Inv_msg_recv _ _ _ h

theorem C6Inv_runOps (ops : List PulsgenOp) : C6Inv (runOps ops) := by
  unfold runOps
  have aux : ∀ (l : List PulsgenOp) (s : PulsgenState), C6Inv s → C6Inv (l.foldl applyOp s) := by
    intro l
    induction l with
    | nil => exact fun s h => h
    | cons a l ih => exact fun s h => ih _ (C6Inv_applyOp s a h)
  exact aux ops initState C6Inv_initState

/-- C6 (amended): in every state reachable from power-on through the
public entry points, a channel whose task flag is false has a free FIFO
head slot.  (The other half of the original claim — that
`task_toggles_todo` is 0 whenever `task` is false — fails after aborts;
see the counterexample.) -/
theorem C6_theorem (ops : List PulsgenOp) (c : Nat)
    (h : ((runOps ops).gen c).task = false) :
    ((runOps ops).fifo c ((runOps ops).fifo_pos c)).used = false :=
  (C6Inv_runOps ops).2 c h

/-- A run that ends with an abort of a half-done task. -/
def demoOps : List PulsgenOp :=
  [.pinSetupOp 0 0 3 0, .taskAddOp 0 0 5 1000 1000 0, .abortOp 0 0]

theorem C6_witness :
    ((runOps demoOps).gen 0).task = false ∧
    ((runOps demoOps).fifo 0 ((runOps demoOps).fifo_pos 0)).used = false :=
  ⟨by decide, C6_theorem demoOps 0 (by decide)⟩

end Pulsgen

namespace Pulsgen

/-! ### C7: per-channel task queue abstraction

A task request as passed to `pulsgen_task_add`; the descriptor of an
installed task as `task_setup` stores it in the channel record; and the
queue of pending descriptors (active task first, then the used FIFO
slots following the head in ring order). -/

structure TaskReq where
  dir : Nat
  toggles : Nat
  setup_ns : Nat
  hold_ns : Nat
  delay : Nat
  deriving DecidableEq

inductive ChEv where
  | add (r : TaskReq)
  | pass (t : Nat)

def applyEv (c : Nat) (s : PulsgenState) : ChEv → PulsgenState
  | .add r => pulsgen_task_add c r.dir r.toggles r.setup_ns r.hold_ns r.delay s
  | .pass t => pulsgen_module_base_thread t s

def runEvs (c : Nat) (es : List ChEv) (s : PulsgenState) : PulsgenState :=
  es.foldl (applyEv c) s

structure ActiveDesc where
  infinite : Bool
  dir : Nat
  toggles : Nat
  setup_t : Nat
  hold_t : Nat
  deriving DecidableEq

/-- How `task_setup` would install a request. -/
def descOfReq (r : TaskReq) : ActiveDesc :=
  { infinite := u32 r.toggles = 0
    dir := u32 r.dir
    toggles := if u32 r.toggles ≠ 0 then u32 r.toggles else U32 - 1
    setup_t := u32 (conv_ns (u32 r.setup_ns))
    hold_t := u32 (conv_ns (u32 r.hold_ns)) }

/-- The descriptor of the task currently installed in a channel record. -/
def descOfCh (g : PulsgenCh) : ActiveDesc :=
  { infinite := g.task_infinite, dir := g.toggles_dir, toggles := g.task_toggles,
    setup_t := g.setup_ticks, hold_t := g.hold_ticks }

def reqOfItem (it : FifoItem) : TaskReq :=
  ⟨it.toggles_dir, it.toggles, it.pin_setup_time, it.pin_hold_time, it.start_delay⟩

/-- The FIFO slot written by the busy branch of `pulsgen_task_add`. -/
def itemOfReq (r : TaskReq) : FifoItem :=
  { used := true, toggles_dir := u32 r.dir, toggles := u32 r.toggles,
    pin_setup_time := u32 r.setup_ns, pin_hold_time := u32 r.hold_ns,
    start_delay := u32 r.delay }

/-- Ring position `i` slots after the head `p`. -/
def slotIdx (p i : Nat) : Nat := (p + 1 + i) % PULSGEN_FIFO_SIZE

/-- The used prefix of the ring of slots following the head. -/
def queuedSlots (c : Nat) (s : PulsgenState) : List FifoItem :=
  ((List.range (PULSGEN_FIFO_SIZE - 1)).map fun i =>
    s.fifo c (slotIdx (s.fifo_pos c) i)).takeWhile (fun it => it.used)

/-- The channel's pending descriptors: the active task, then the queued
slots in ring order. -/
def chanQueue (c : Nat) (s : PulsgenState) : List ActiveDesc :=
  if (s.gen c).task then
    descOfCh (s.gen c) :: (queuedSlots c s).map (fun it => descOfReq (reqOfItem it))
  else []

/-- The single-channel ordering invariant: head index in range, watchdog
disarmed, no abort latch pending, every other channel idle, and the
used slots after the head form a contiguous prefix of the ring (all
slots free when the channel is idle). -/
def C7Inv (c : Nat) (s : PulsgenState) : Prop :=
  s.fifo_pos c < PULSGEN_FIFO_SIZE ∧
  s.wd_todo_tick = 0 ∧
  (s.gen c).abort_on_setup = false ∧
  (s.gen c).abort_on_hold = false ∧
  (∀ c', c' ≠ c → (s.gen c').task = false) ∧
  ((s.gen c).task = true →
    (s.fifo c (s.fifo_pos c)).used = true ∧
    ∃ k, k ≤ PULSGEN_FIFO_SIZE - 1 ∧
      (∀ i, i < k → (s.fifo c (slotIdx (s.fifo_pos c) i)).used = true) ∧
      (∀ i, k ≤ i → i < PULSGEN_FIFO_SIZE - 1 →
        (s.fifo c (slotIdx (s.fifo_pos c) i)).used = false)) ∧
  ((s.gen c).task = false → ∀ i, i < PULSGEN_FIFO_SIZE → (s.fifo c i).used = false)

theorem C7Inv_initState (c : Nat) : C7Inv c initState := by
  refine ⟨by norm_num [initState, PULSGEN_FIFO_SIZE], rfl, rfl, rfl,
    fun c' _ => rfl, fun ht => ?_, fun _ i _ => rfl⟩
  exact absurd ht (by simp [initState, zeroCh])

theorem u32_u32 (x : Nat) : u32 (u32 x) = u32 x := by
  unfold u32
  exact Nat.mod_mod_of_dvd _ dvd_rfl

theorem descOfReq_round (r : TaskReq) : descOfReq (reqOfItem (itemOfReq r)) = descOfReq r := by
  simp [descOfReq, reqOfItem, itemOfReq, u32_u32]

end Pulsgen

namespace Pulsgen

/-! ### Frame lemmas for the scan loop -/

theorem serviceCh_idle (b : Bool) (c : Nat) (s : PulsgenState)
    (h : (s.gen c).task = false) : serviceCh b c s = s := by
  unfold serviceCh
  rw [if_pos]
  simp [h]

theorem retireStep_gen_of_ne (c c' : Nat) (s : PulsgenState) (h : c' ≠ c) :
    (retireStep c s).gen c' = s.gen c' := by
  unfold retireStep
  simp only [updFifo_fifo_pos]
  obtain ⟨p, hP⟩ :
      ∃ p, (if PULSGEN_FIFO_SIZE ≤ u8 (s.fifo_pos c + 1) then 0
            else u8 (s.fifo_pos c + 1)) = p := ⟨_, rfl⟩
  rw [hP]
  split
  · rw [task_setup_gen_of_ne _ _ _ _ _ _ _ _ h]
    simp only [updFifoPos_gen, updFifo_gen]
  · split <;>
    · rw [updGen_gen_of_ne _ _ _ _ h]
      simp only [updFifoPos_gen, updFifo_gen]

theorem tallyToggles_gen_of_ne (c c' : Nat) (s : PulsgenState) (h : c' ≠ c) :
    (tallyToggles c s).gen c' = s.gen c' := by
  unfold tallyToggles
  dsimp only
  rw [updGen_gen_of_ne _ _ _ _ h]

theorem serviceCh_gen_of_ne (b : Bool) (c c' : Nat) (s : PulsgenState) (h : c' ≠ c) :
    (serviceCh b c s).gen c' = s.gen c' := by
  unfold serviceCh
  split
  · rfl
  split
  · exact abort_gen_of_ne c c' s h
  split
  · rfl
  split
  · exact retireStep_gen_of_ne c c' s h
  dsimp only
  split
  · rw [tallyToggles_gen_of_ne _ _ _ h]
    split
    · rw [abort_gen_of_ne c c' _ h]
    · rw [updGen_gen_of_ne _ _ _ _ h]
  · rw [tallyToggles_gen_of_ne _ _ _ h]
    split
    · rw [abort_gen_of_ne c c' _ h]
    · rw [updGen_gen_of_ne _ _ _ _ h]

theorem foldl_service_of_idle (b : Bool) (c : Nat) (l : List Nat) (hnd : l.Nodup)
    (s : PulsgenState) (hidle : ∀ c', c' ≠ c → (s.gen c').task = false) :
    l.foldl (fun st a => serviceCh b a st) s = if c ∈ l then serviceCh b c s else s := by
  induction l generalizing s with
  | nil => simp
  | cons a l ih =>
      simp only [List.foldl_cons]
      by_cases hac : a = c
      · subst hac
        have hnotin : a ∉ l := (List.nodup_cons.mp hnd).1
        have hidle' : ∀ c', c' ≠ a → ((serviceCh b a s).gen c').task = false := by
          intro c' hcc
          rw [serviceCh_gen_of_ne b a c' s hcc]
          exact hidle c' hcc
        rw [ih (List.nodup_cons.mp hnd).2 (serviceCh b a s) hidle']
        rw [if_neg hnotin, if_pos (List.mem_cons_self a l)]
      · rw [serviceCh_idle b a s (hidle a hac)]
        rw [ih (List.nodup_cons.mp hnd).2 s hidle]
        by_cases hcl : c ∈ l
        · rw [if_pos hcl, if_pos (List.mem_cons_of_mem a hcl)]
        · rw [if_neg hcl, if_neg ?_]
          intro hm
          rcases List.mem_cons.mp hm with h1 | h1
          · exact hac h1.symm
          · exact hcl h1

theorem base_thread_reduce (t : Nat) (c : Nat) (s : PulsgenState)
    (hwd : s.wd_todo_tick = 0) (hidle : ∀ c', c' ≠ c → (s.gen c').task = false) :
    pulsgen_module_base_thread t s =
      if c < u8 (s.max_id + 1) then serviceCh false c { s with tick := u64 t }
      else { s with tick := u64 t } := by
  unfold pulsgen_module_base_thread
  dsimp only
  rw [foldl_service_of_idle _ c _ (by simp [List.nodup_reverse, List.nodup_range])
    { s with tick := u64 t } hidle]
  simp only [List.mem_reverse, List.mem_range]
  have hb : decide (s.wd_todo_tick ≠ 0 ∧ s.wd_todo_tick < u64 t) = false := by
    simp [hwd]
  rw [hb]

end Pulsgen

namespace Pulsgen

theorem fifoScan_from_0 : fifoScan PULSGEN_FIFO_SIZE 1 = [1, 2, 3, 0] := rfl

theorem fifoScan_from_1 : fifoScan PULSGEN_FIFO_SIZE 2 = [2, 3, 0, 1] := rfl

theorem fifoScan_from_2 : fifoScan PULSGEN_FIFO_SIZE 3 = [3, 0, 1, 2] := rfl

theorem fifoScan_from_3 : fifoScan PULSGEN_FIFO_SIZE 4 = [0, 1, 2, 3] := rfl

theorem find_free_slot (f : Nat → Bool) (p k : Nat) (hp : p < PULSGEN_FIFO_SIZE)
    (hk : k < PULSGEN_FIFO_SIZE - 1)
    (hused : ∀ i, i < k → f ((p + 1 + i) % PULSGEN_FIFO_SIZE) = true)
    (hfree : f ((p + 1 + k) % PULSGEN_FIFO_SIZE) = false) :
    (fifoScan PULSGEN_FIFO_SIZE (p + 1)).find? (fun pos => !f pos)
      = some ((p + 1 + k) % PULSGEN_FIFO_SIZE) := by
  have h0 := fun h => hused 0 h
  have h1 := fun h => hused 1 h
  norm_num [PULSGEN_FIFO_SIZE] at hp hk
  interval_cases p <;> interval_cases k <;>
    simp_all [fifoScan_from_0, fifoScan_from_1, fifoScan_from_2, fifoScan_from_3,
      PULSGEN_FIFO_SIZE, List.find?]

theorem queuedSlots_eq (c : Nat) (s : PulsgenState) (k : Nat)
    (hk : k ≤ PULSGEN_FIFO_SIZE - 1)
    (hused : ∀ i, i < k → (s.fifo c (slotIdx (s.fifo_pos c) i)).used = true)
    (hfree : ∀ i, k ≤ i → i < PULSGEN_FIFO_SIZE - 1 →
      (s.fifo c (slotIdx (s.fifo_pos c) i)).used = false) :
    queuedSlots c s = (List.range k).map (fun i => s.fifo c (slotIdx (s.fifo_pos c) i)) := by
  have h0 := fun h => hused 0 h
  have h1 := fun h => hused 1 h
  have h2 := fun h => hused 2 h
  have g0 := fun h h' => hfree 0 h h'
  have g1 := fun h h' => hfree 1 h h'
  have g2 := fun h h' => hfree 2 h h'
  norm_num [PULSGEN_FIFO_SIZE] at hk
  interval_cases k <;>
    simp_all [queuedSlots, PULSGEN_FIFO_SIZE, List.takeWhile,
      show List.range 3 = [0, 1, 2] from rfl, show List.range 2 = [0, 1] from rfl,
      show List.range 1 = [0] from rfl, show List.range 0 = ([] : List Nat) from rfl]

end Pulsgen

namespace Pulsgen

theorem slotIdx_lt (p i : Nat) : slotIdx p i < PULSGEN_FIFO_SIZE := by
  simp only [slotIdx, PULSGEN_FIFO_SIZE]
  omega

theorem slotIdx_ne_head (p i : Nat) (hp : p < PULSGEN_FIFO_SIZE)
    (hi : i < PULSGEN_FIFO_SIZE - 1) : slotIdx p i ≠ p := by
  simp only [slotIdx, PULSGEN_FIFO_SIZE] at *
  omega

theorem slotIdx_inj (p i j : Nat) (hi : i < PULSGEN_FIFO_SIZE) (hj : j < PULSGEN_FIFO_SIZE) :
    slotIdx p i = slotIdx p j → i = j := by
  simp only [slotIdx, PULSGEN_FIFO_SIZE] at *
  omega

end Pulsgen

namespace Pulsgen

theorem C7_add (c : Nat) (r : TaskReq) (s : PulsgenState) (h : C7Inv c s)
    (hroom : (chanQueue c s).length < PULSGEN_FIFO_SIZE) :
    C7Inv c (pulsgen_task_add c r.dir r.toggles r.setup_ns r.hold_ns r.delay s) ∧
    chanQueue c (pulsgen_task_add c r.dir r.toggles r.setup_ns r.hold_ns r.delay s)
      = chanQueue c s ++ [descOfReq r] := by
  obtain ⟨hpos, hwd, has, hah, hoth, hbusy, hidle⟩ := h
  by_cases hb : (s.gen c).task
  · -- busy branch
    obtain ⟨hhd, k, hk, hused, hfree⟩ := hbusy hb
    have hq : chanQueue c s =
        descOfCh (s.gen c) ::
          ((List.range k).map (fun i => s.fifo c (slotIdx (s.fifo_pos c) i))).map
            (fun it => descOfReq (reqOfItem it)) := by
      rw [chanQueue, if_pos hb, queuedSlots_eq c s k hk hused hfree]
    have hklt : k < PULSGEN_FIFO_SIZE - 1 := by
      rw [hq] at hroom
      simp only [List.length_cons, List.length_map, List.length_range] at hroom
      norm_num [PULSGEN_FIFO_SIZE] at hroom ⊢
      omega
    have hfind : (fifoScan PULSGEN_FIFO_SIZE (s.fifo_pos c + 1)).find?
        (fun pos => !(s.fifo c pos).used) = some ((s.fifo_pos c + 1 + k) % PULSGEN_FIFO_SIZE) := by
      exact find_free_slot (fun pos => (s.fifo c pos).used) (s.fifo_pos c) k hpos hklt
        hused (hfree k (Nat.le_refl k) hklt)
    have hstep : pulsgen_task_add c r.dir r.toggles r.setup_ns r.hold_ns r.delay s =
        updFifo s c (slotIdx (s.fifo_pos c) k) (itemOfReq r) := by
      unfold pulsgen_task_add
      rw [if_pos hb, hfind]
      rfl
    rw [hstep]
    -- facts about the updated fifo
    have hne_head : slotIdx (s.fifo_pos c) k ≠ s.fifo_pos c :=
      slotIdx_ne_head _ k hpos hklt
    have hfifo_at : ∀ i, i < PULSGEN_FIFO_SIZE - 1 → i ≠ k →
        (updFifo s c (slotIdx (s.fifo_pos c) k) (itemOfReq r)).fifo c
          (slotIdx (s.fifo_pos c) i) = s.fifo c (slotIdx (s.fifo_pos c) i) := by
      intro i hilt hik
      apply updFifo_fifo_of_ne
      intro hcontra
      exact hik (slotIdx_inj _ i k (by omega) (by omega) hcontra.2)
    constructor
    · refine ⟨by simpa using hpos, by simpa using hwd, by simpa using has,
        by simpa using hah, fun c' hcc => by simpa using hoth c' hcc, fun ht => ?_, fun ht => ?_⟩
      · refine ⟨?_, k + 1, by omega, fun i hik => ?_, fun i hik hilt => ?_⟩
        · simp only [updFifo_fifo_pos]
          rw [updFifo_fifo_of_ne _ _ _ _ _ _ (fun hc => hne_head hc.2.symm)]
          exact hhd
        · simp only [updFifo_fifo_pos]
          by_cases hik' : i = k
          · subst hik'
            rw [updFifo_fifo_self]
            rfl
          · rw [hfifo_at i (by omega) hik']
            exact hused i (by omega)
        · simp only [updFifo_fifo_pos]
          rw [hfifo_at i (by omega) (by omega)]
          exact hfree i (by omega) hilt
      · simp only [updFifo_gen] at ht
        exact absurd ht (by simp [hb])
    · have hb' : ((updFifo s c (slotIdx (s.fifo_pos c) k) (itemOfReq r)).gen c).task = true := by
        simpa using hb
      rw [chanQueue, if_pos hb', hq]
      have hq' : queuedSlots c (updFifo s c (slotIdx (s.fifo_pos c) k) (itemOfReq r)) =
          (List.range (k + 1)).map
            (fun i => (updFifo s c (slotIdx (s.fifo_pos c) k) (itemOfReq r)).fifo c
              (slotIdx (s.fifo_pos c) i)) := by
        apply queuedSlots_eq
        · omega
        · intro i hik
          simp only [updFifo_fifo_pos]
          by_cases hik' : i = k
          · subst hik'
            rw [updFifo_fifo_self]
            rfl
          · rw [hfifo_at i (by omega) hik']
            exact hused i (by omega)
        · intro i hik hilt
          simp only [updFifo_fifo_pos]
          rw [hfifo_at i (by omega) (by omega)]
          exact hfree i (by omega) hilt
      rw [hq']
      simp only [updFifo_gen, List.range_succ, List.map_append, List.map_map]
      congr 1
      congr 1
      · apply List.map_congr_left
        intro i hi
        simp only [List.mem_range] at hi
        simp only [Function.comp]
        rw [hfifo_at i (by omega) (by omega)]
      · simp only [List.map_cons, List.map_nil, Function.comp]
        rw [updFifo_fifo_self, descOfReq_round]
  · -- idle branch
    rw [Bool.not_eq_true] at hb
    have hzq : chanQueue c s = [] := by
      rw [chanQueue, if_neg (by simp [hb])]
    have hstep : pulsgen_task_add c r.dir r.toggles r.setup_ns r.hold_ns r.delay s =
        task_setup c r.dir r.toggles r.setup_ns r.hold_ns r.delay
          (updFifo s c (s.fifo_pos c) { s.fifo c (s.fifo_pos c) with used := true }) := by
      unfold pulsgen_task_add
      rw [if_neg (by simp [hb])]
    rw [hstep, hzq]
    constructor
    · refine ⟨?_, ?_, ?_, ?_, ?_, fun ht => ?_, fun ht => ?_⟩
      · rw [task_setup_fifo_pos]
        simpa using hpos
      · rw [task_setup_wd_todo_tick]
        simpa using hwd
      · rw [task_setup_gen_self]
      · rw [task_setup_gen_self]
      · intro c' hcc
        rw [task_setup_gen_of_ne _ _ _ _ _ _ _ _ hcc]
        simpa using hoth c' hcc
      · refine ⟨?_, 0, by omega, fun i hi => absurd hi (by omega), fun i _ hilt => ?_⟩
        · rw [task_setup_fifo, task_setup_fifo_pos]
          simp only [updFifo_fifo_pos]
          rw [updFifo_fifo_self]
        · rw [task_setup_fifo, task_setup_fifo_pos]
          simp only [updFifo_fifo_pos]
          rw [updFifo_fifo_of_ne _ _ _ _ _ _ (fun hc => (slotIdx_ne_head _ i hpos hilt) hc.2)]
          exact hidle hb (slotIdx (s.fifo_pos c) i) (slotIdx_lt _ _)
      · rw [task_setup_gen_self] at ht
        exact absurd ht (by simp)
    · have hb' : ((task_setup c r.dir r.toggles r.setup_ns r.hold_ns r.delay
          (updFifo s c (s.fifo_pos c) { s.fifo c (s.fifo_pos c) with used := true })).gen c).task
          = true := by
        rw [task_setup_gen_self]
      rw [chanQueue, if_pos hb']
      have hq0 : queuedSlots c (task_setup c r.dir r.toggles r.setup_ns r.hold_ns r.delay
          (updFifo s c (s.fifo_pos c) { s.fifo c (s.fifo_pos c) with used := true })) =
          (List.range 0).map (fun i => (task_setup c r.dir r.toggles r.setup_ns r.hold_ns r.delay
            (updFifo s c (s.fifo_pos c) { s.fifo c (s.fifo_pos c) with used := true })).fifo c
            (slotIdx ((task_setup c r.dir r.toggles r.setup_ns r.hold_ns r.delay
              (updFifo s c (s.fifo_pos c) { s.fifo c (s.fifo_pos c) with used := true })).fifo_pos c) i)) := by
        apply queuedSlots_eq
        · omega
        · intro i hi
          exact absurd hi (by omega)
        · intro i _ hilt
          rw [task_setup_fifo, task_setup_fifo_pos]
          simp only [updFifo_fifo_pos]
          rw [updFifo_fifo_of_ne _ _ _ _ _ _ (fun hc => (slotIdx_ne_head _ i hpos hilt) hc.2)]
          exact hidle hb (slotIdx (s.fifo_pos c) i) (slotIdx_lt _ _)
      rw [hq0]
      simp only [List.range_zero, List.map_nil, List.nil_append]
      rw [task_setup_gen_self]
      simp [descOfCh, descOfReq]

end Pulsgen

namespace Pulsgen

theorem slotIdx_shift (p i : Nat) : slotIdx (slotIdx p 0) i = slotIdx p (i + 1) := by
  simp only [slotIdx, PULSGEN_FIFO_SIZE]
  omega

theorem slotIdx_wrap (p : Nat) (hp : p < PULSGEN_FIFO_SIZE) :
    slotIdx p (PULSGEN_FIFO_SIZE - 1) = p := by
  simp only [slotIdx, PULSGEN_FIFO_SIZE] at *
  omega

theorem ring_cover (p i : Nat) (hp : p < PULSGEN_FIFO_SIZE) (hi : i < PULSGEN_FIFO_SIZE)
    (hne : i ≠ p) : ∃ j, j < PULSGEN_FIFO_SIZE - 1 ∧ slotIdx p j = i := by
  refine ⟨(i + PULSGEN_FIFO_SIZE - (p + 1)) % PULSGEN_FIFO_SIZE, ?_, ?_⟩ <;>
    · simp only [slotIdx, PULSGEN_FIFO_SIZE] at *
      omega

theorem map_range_shift {α : Type} (g : Nat → α) (k : Nat) (hk1 : 1 ≤ k) (hk : k ≤ 3) :
    g 0 :: (List.range (k - 1)).map (fun i => g (i + 1)) = (List.range k).map g := by
  interval_cases k <;>
    simp [show List.range 3 = [0, 1, 2] from rfl, show List.range 2 = [0, 1] from rfl,
      show List.range 1 = [0] from rfl, show List.range 0 = ([] : List Nat) from rfl]

theorem retire_p_eq (x : Nat) (hx : x < PULSGEN_FIFO_SIZE) :
    (if PULSGEN_FIFO_SIZE ≤ u8 (x + 1) then 0 else u8 (x + 1)) = slotIdx x 0 := by
  simp only [u8, slotIdx, PULSGEN_FIFO_SIZE] at *
  split <;> omega

end Pulsgen

namespace Pulsgen

theorem C7_retire (c : Nat) (s : PulsgenState) (h : C7Inv c s)
    (htask : (s.gen c).task = true) :
    C7Inv c (retireStep c s) ∧ chanQueue c (retireStep c s) = (chanQueue c s).tail := by
  obtain ⟨hpos, hwd, has, hah, hoth, hbusy, hidle⟩ := h
  obtain ⟨hhd, k, hk, hused, hfree⟩ := hbusy htask
  have hq : chanQueue c s = descOfCh (s.gen c) ::
      ((List.range k).map (fun i => s.fifo c (slotIdx (s.fifo_pos c) i))).map
        (fun it => descOfReq (reqOfItem it)) := by
    rw [chanQueue, if_pos htask, queuedSlots_eq c s k hk hused hfree]
  have hq0ne : slotIdx (s.fifo_pos c) 0 ≠ s.fifo_pos c :=
    slotIdx_ne_head _ 0 hpos (by norm_num [PULSGEN_FIFO_SIZE])
  have hs1q : ∀ i, slotIdx (s.fifo_pos c) i ≠ s.fifo_pos c →
      (updFifo s c (s.fifo_pos c) { s.fifo c (s.fifo_pos c) with used := false }).fifo c
        (slotIdx (s.fifo_pos c) i) = s.fifo c (slotIdx (s.fifo_pos c) i) := by
    intro i hne
    exact updFifo_fifo_of_ne _ _ _ _ _ _ (fun hc => hne hc.2)
  unfold retireStep
  simp only [updFifo_fifo_pos]
  rw [retire_p_eq _ hpos]
  simp only [updFifoPos_fifo]
  rw [hs1q 0 hq0ne]
  by_cases hk0 : k = 0
  · -- queue empty after the active task: channel goes idle
    subst hk0
    rw [if_neg (by rw [hfree 0 (Nat.le_refl 0) (by norm_num [PULSGEN_FIFO_SIZE])]; simp)]
    constructor
    · split <;>
      · refine ⟨?_, ?_, ?_, ?_, ?_, fun ht => ?_, fun _ i hi => ?_⟩
        · simp only [updGen_fifo_pos, updFifoPos_fifo_pos_self]
          exact slotIdx_lt _ _
        · simpa using hwd
        · rw [updGen_gen_self]
          simpa using has
        · rw [updGen_gen_self]
          simpa using hah
        · intro c' hcc
          rw [updGen_gen_of_ne _ _ _ _ hcc]
          simp only [updFifoPos_gen, updFifo_gen]
          exact hoth c' hcc
        · rw [updGen_gen_self] at ht
          exact absurd ht (by simp)
        · simp only [updGen_fifo, updFifoPos_fifo]
          by_cases hip : i = s.fifo_pos c
          · subst hip
            rw [updFifo_fifo_self]
          · obtain ⟨j, hj3, hji⟩ := ring_cover (s.fifo_pos c) i hpos hi hip
            rw [← hji, hs1q j (fun hc => hip (hji.symm.trans hc))]
            exact hfree j (Nat.zero_le j) hj3
    · have htail : (chanQueue c s).tail = [] := by
        rw [hq]
        simp
      rw [htail]
      split <;>
      · rw [chanQueue, if_neg]
        rw [updGen_gen_self]
        simp
  · -- a successor task is installed from the FIFO
    have hk1 : 1 ≤ k := Nat.one_le_iff_ne_zero.mpr hk0
    rw [if_pos (by rw [hused 0 (by omega)])]
    have hdesc : descOfCh ((task_setup c (s.fifo c (slotIdx (s.fifo_pos c) 0)).toggles_dir
        (s.fifo c (slotIdx (s.fifo_pos c) 0)).toggles
        (s.fifo c (slotIdx (s.fifo_pos c) 0)).pin_setup_time
        (s.fifo c (slotIdx (s.fifo_pos c) 0)).pin_hold_time
        (s.fifo c (slotIdx (s.fifo_pos c) 0)).start_delay
        (updFifoPos (updFifo s c (s.fifo_pos c) { s.fifo c (s.fifo_pos c) with used := false }) c
          (slotIdx (s.fifo_pos c) 0))).gen c) =
        descOfReq (reqOfItem (s.fifo c (slotIdx (s.fifo_pos c) 0))) := by
      rw [task_setup_gen_self]
      simp [descOfCh, descOfReq, reqOfItem]
    constructor
    · refine ⟨?_, ?_, ?_, ?_, ?_, fun ht => ?_, fun ht => ?_⟩
      · rw [task_setup_fifo_pos]
        simp only [updFifoPos_fifo_pos_self]
        exact slotIdx_lt _ _
      · rw [task_setup_wd_todo_tick]
        simpa using hwd
      · rw [task_setup_gen_self]
      · rw [task_setup_gen_self]
      · intro c' hcc
        rw [task_setup_gen_of_ne _ _ _ _ _ _ _ _ hcc]
        simp only [updFifoPos_gen, updFifo_gen]
        exact hoth c' hcc
      · refine ⟨?_, k - 1, by omega, fun i hik => ?_, fun i hik hilt => ?_⟩
        · rw [task_setup_fifo, task_setup_fifo_pos]
          simp only [updFifoPos_fifo_pos_self, updFifoPos_fifo]
          rw [hs1q 0 hq0ne]
          rw [hused 0 (by omega)]
        · rw [task_setup_fifo, task_setup_fifo_pos]
          simp only [updFifoPos_fifo_pos_self, updFifoPos_fifo]
          rw [slotIdx_shift]
          rw [hs1q (i + 1) (slotIdx_ne_head _ (i + 1) hpos (by
            norm_num [PULSGEN_FIFO_SIZE] at hk ⊢
            omega))]
          exact hused (i + 1) (by omega)
        · rw [task_setup_fifo, task_setup_fifo_pos]
          simp only [updFifoPos_fifo_pos_self, updFifoPos_fifo]
          rw [slotIdx_shift]
          by_cases hi3 : i + 1 < PULSGEN_FIFO_SIZE - 1
          · rw [hs1q (i + 1) (slotIdx_ne_head _ (i + 1) hpos hi3)]
            exact hfree (i + 1) (by omega) hi3
          · have hieq : i + 1 = PULSGEN_FIFO_SIZE - 1 := by
              norm_num [PULSGEN_FIFO_SIZE] at hilt hi3 ⊢
              omega
            rw [hieq, slotIdx_wrap _ hpos]
            rw [updFifo_fifo_self]
      · rw [task_setup_gen_self] at ht
        exact absurd ht (by simp)
    · rw [chanQueue, if_pos (by rw [task_setup_gen_self])]
      rw [hdesc]
      have hqs : queuedSlots c (task_setup c (s.fifo c (slotIdx (s.fifo_pos c) 0)).toggles_dir
          (s.fifo c (slotIdx (s.fifo_pos c) 0)).toggles
          (s.fifo c (slotIdx (s.fifo_pos c) 0)).pin_setup_time
          (s.fifo c (slotIdx (s.fifo_pos c) 0)).pin_hold_time
          (s.fifo c (slotIdx (s.fifo_pos c) 0)).start_delay
          (updFifoPos (updFifo s c (s.fifo_pos c) { s.fifo c (s.fifo_pos c) with used := false }) c
            (slotIdx (s.fifo_pos c) 0))) =
          (List.range (k - 1)).map (fun i => s.fifo c (slotIdx (s.fifo_pos c) (i + 1))) := by
        have hu : ∀ i, i < k - 1 →
            ((task_setup c (s.fifo c (slotIdx (s.fifo_pos c) 0)).toggles_dir
          (s.fifo c (slotIdx (s.fifo_pos c) 0)).toggles
          (s.fifo c (slotIdx (s.fifo_pos c) 0)).pin_setup_time
          (s.fifo c (slotIdx (s.fifo_pos c) 0)).pin_hold_time
          (s.fifo c (slotIdx (s.fifo_pos c) 0)).start_delay
          (updFifoPos (updFifo s c (s.fifo_pos c) { s.fifo c (s.fifo_pos c) with used := false }) c
            (slotIdx (s.fifo_pos c) 0))).fifo c
              (slotIdx ((task_setup c (s.fifo c (slotIdx (s.fifo_pos c) 0)).toggles_dir
          (s.fifo c (slotIdx (s.fifo_pos c) 0)).toggles
          (s.fifo c (slotIdx (s.fifo_pos c) 0)).pin_setup_time
          (s.fifo c (slotIdx (s.fifo_pos c) 0)).pin_hold_time
          (s.fifo c (slotIdx (s.fifo_pos c) 0)).start_delay
          (updFifoPos (updFifo s c (s.fifo_pos c) { s.fifo c (s.fifo_pos c) with used := false }) c
            (slotIdx (s.fifo_pos c) 0))).fifo_pos c) i)).used = true := by
          intro i hik
          rw [task_setup_fifo, task_setup_fifo_pos]
          simp only [updFifoPos_fifo_pos_self, updFifoPos_fifo]
          rw [slotIdx_shift]
          rw [hs1q (i + 1) (slotIdx_ne_head _ (i + 1) hpos (by
            norm_num [PULSGEN_FIFO_SIZE] at hk ⊢
            omega))]
          exact hused (i + 1) (by omega)
        have hf : ∀ i, k - 1 ≤ i → i < PULSGEN_FIFO_SIZE - 1 →
            ((task_setup c (s.fifo c (slotIdx (s.fifo_pos c) 0)).toggles_dir
          (s.fifo c (slotIdx (s.fifo_pos c) 0)).toggles
          (s.fifo c (slotIdx (s.fifo_pos c) 0)).pin_setup_time
          (s.fifo c (slotIdx (s.fifo_pos c) 0)).pin_hold_time
          (s.fifo c (slotIdx (s.fifo_pos c) 0)).start_delay
          (updFifoPos (updFifo s c (s.fifo_pos c) { s.fifo c (s.fifo_pos c) with used := false }) c
            (slotIdx (s.fifo_pos c) 0))).fifo c
              (slotIdx ((task_setup c (s.fifo c (slotIdx (s.fifo_pos c) 0)).toggles_dir
          (s.fifo c (slotIdx (s.fifo_pos c) 0)).toggles
          (s.fifo c (slotIdx (s.fifo_pos c) 0)).pin_setup_time
          (s.fifo c (slotIdx (s.fifo_pos c) 0)).pin_hold_time
          (s.fifo c (slotIdx (s.fifo_pos c) 0)).start_delay
          (updFifoPos (updFifo s c (s.fifo_pos c) { s.fifo c (s.fifo_pos c) with used := false }) c
            (slotIdx (s.fifo_pos c) 0))).fifo_pos c) i)).used = false := by
          intro i hik hilt
          rw [task_setup_fifo, task_setup_fifo_pos]
          simp only [updFifoPos_fifo_pos_self, updFifoPos_fifo]
          rw [slotIdx_shift]
          by_cases hi3 : i + 1 < PULSGEN_FIFO_SIZE - 1
          · rw [hs1q (i + 1) (slotIdx_ne_head _ (i + 1) hpos hi3)]
            exact hfree (i + 1) (by omega) hi3
          · have hieq : i + 1 = PULSGEN_FIFO_SIZE - 1 := by
              norm_num [PULSGEN_FIFO_SIZE] at hilt hi3 ⊢
              omega
            rw [hieq, slotIdx_wrap _ hpos]
            rw [updFifo_fifo_self]
        rw [queuedSlots_eq c _ (k - 1) (by omega) hu hf]
        apply List.map_congr_left
        intro i hi
        simp only [List.mem_range] at hi
        rw [task_setup_fifo, task_setup_fifo_pos]
        simp only [updFifoPos_fifo_pos_self, updFifoPos_fifo]
        rw [slotIdx_shift]
        rw [hs1q (i + 1) (slotIdx_ne_head _ (i + 1) hpos (by
          norm_num [PULSGEN_FIFO_SIZE] at hk ⊢
          omega))]
      rw [hqs, hq]
      simp only [List.tail_cons, List.map_map]
      have := map_range_shift
        (fun i => descOfReq (reqOfItem (s.fifo c (slotIdx (s.fifo_pos c) i)))) k hk1
        (by norm_num [PULSGEN_FIFO_SIZE] at hk; exact hk)
      simpa [Function.comp] using this

end Pulsgen

namespace Pulsgen

theorem C7_commit (c : Nat) (s : PulsgenState)
    (htask : (s.gen c).task = true)
    (hdue : ¬ s.tick < (s.gen c).todo_tick)
    (hrem : ¬((s.gen c).task_toggles_todo = 0 ∧ (s.gen c).task_infinite = false))
    (hsetup : (s.gen c).abort_on_setup = false)
    (hhold : (s.gen c).abort_on_hold = false) :
    (serviceCh false c s).fifo = s.fifo ∧
    (serviceCh false c s).fifo_pos = s.fifo_pos ∧
    (serviceCh false c s).wd_todo_tick = s.wd_todo_tick ∧
    ((serviceCh false c s).gen c).task = true ∧
    ((serviceCh false c s).gen c).abort_on_setup = false ∧
    ((serviceCh false c s).gen c).abort_on_hold = false ∧
    descOfCh ((serviceCh false c s).gen c) = descOfCh (s.gen c) := by
  by_cases hp : GPIO_PIN_GET s.ports (s.gen c).port (s.gen c).pin_mask ^^^ (s.gen c).pin_inverted ≠ 0 <;>
    refine ⟨?_, ?_, ?_, ?_, ?_, ?_, ?_⟩ <;>
      simp [serviceCh, tallyToggles, updGen_gen_self, descOfCh, htask, hdue, hrem, hsetup,
        hhold, hp, updGen]

/-- `chanQueue` only looks at the channel record's task fields and the
channel's FIFO ring. -/
theorem chanQueue_congr (c : Nat) (s s' : PulsgenState)
    (htask : (s'.gen c).task = (s.gen c).task)
    (hdesc : descOfCh (s'.gen c) = descOfCh (s.gen c))
    (hfifo : ∀ i, s'.fifo c i = s.fifo c i)
    (hpos : s'.fifo_pos c = s.fifo_pos c) :
    chanQueue c s' = chanQueue c s := by
  unfold chanQueue queuedSlots
  rw [htask, hdesc, hpos]
  by_cases hb : (s.gen c).task = true <;> simp [hb, hfifo]

end Pulsgen

namespace Pulsgen

theorem C7_pass (c t : Nat) (s : PulsgenState) (h : C7Inv c s) :
    C7Inv c (pulsgen_module_base_thread t s) ∧
    (chanQueue c (pulsgen_module_base_thread t s) = chanQueue c s ∨
     chanQueue c (pulsgen_module_base_thread t s) = (chanQueue c s).tail) := by
  obtain ⟨hpos, hwd, has, hah, hoth, hbusy, hidle⟩ := h
  rw [base_thread_reduce t c s hwd hoth]
  have hInv' : C7Inv c ({ s with tick := u64 t } : PulsgenState) :=
    ⟨hpos, hwd, has, hah, hoth, hbusy, hidle⟩
  have hq' : chanQueue c ({ s with tick := u64 t } : PulsgenState) = chanQueue c s := rfl
  by_cases hscan : c < u8 (s.max_id + 1)
  · rw [if_pos hscan]
    by_cases ht : (({ s with tick := u64 t } : PulsgenState).gen c).task = true
    · by_cases hdue : ({ s with tick := u64 t } : PulsgenState).tick <
          (({ s with tick := u64 t } : PulsgenState).gen c).todo_tick
      · have hred : serviceCh false c ({ s with tick := u64 t } : PulsgenState) =
            ({ s with tick := u64 t } : PulsgenState) := by
          unfold serviceCh
          rw [if_neg (by simpa using ht), if_neg (by simp), if_pos hdue]
        rw [hred]
        exact ⟨hInv', Or.inl hq'⟩
      · by_cases hrem : (({ s with tick := u64 t } : PulsgenState).gen c).task_toggles_todo = 0 ∧
            ¬(({ s with tick := u64 t } : PulsgenState).gen c).task_infinite = true
        · have hred : serviceCh false c ({ s with tick := u64 t } : PulsgenState) =
              retireStep c ({ s with tick := u64 t } : PulsgenState) := by
            unfold serviceCh
            rw [if_neg (by simpa using ht), if_neg (by simp), if_neg hdue, if_pos hrem]
          rw [hred]
          obtain ⟨hi, he⟩ := C7_retire c ({ s with tick := u64 t } : PulsgenState) hInv' ht
          rw [hq'] at he
          exact ⟨hi, Or.inr he⟩
        · have hrem' : ¬((({ s with tick := u64 t } : PulsgenState).gen c).task_toggles_todo = 0 ∧
              (({ s with tick := u64 t } : PulsgenState).gen c).task_infinite = false) := by
            rw [Bool.not_eq_true] at hrem
            exact hrem
          obtain ⟨hf, hfp, hwd2, ht2, has2, hah2, hdesc2⟩ :=
            C7_commit c ({ s with tick := u64 t } : PulsgenState) ht hdue hrem' has hah
          refine ⟨⟨?_, ?_, has2, hah2, ?_, fun _ => ?_, fun ht3 => ?_⟩, Or.inl ?_⟩
          · rw [hfp]
            exact hpos
          · rw [hwd2]
            exact hwd
          · intro c' hcc
            rw [serviceCh_gen_of_ne false c c' _ hcc]
            exact hoth c' hcc
          · obtain ⟨hhd, k, hk, hused, hfree⟩ := hbusy ht
            refine ⟨?_, k, hk, fun i hik => ?_, fun i hik hilt => ?_⟩
            · rw [hfp]
              rw [show ∀ i, (serviceCh false c ({ s with tick := u64 t } : PulsgenState)).fifo c i
                  = s.fifo c i from fun i => by rw [hf]]
              exact hhd
            · rw [hfp]
              rw [show ∀ i, (serviceCh false c ({ s with tick := u64 t } : PulsgenState)).fifo c i
                  = s.fifo c i from fun i => by rw [hf]]
              exact hused i hik
            · rw [hfp]
              rw [show ∀ i, (serviceCh false c ({ s with tick := u64 t } : PulsgenState)).fifo c i
                  = s.fifo c i from fun i => by rw [hf]]
              exact hfree i hik hilt
          · rw [ht2] at ht3
            cases ht3
          · rw [← hq']
            apply chanQueue_congr
            · rw [ht2, ht]
            · rw [hdesc2]
            · intro i
              rw [hf]
            · rw [hfp]
    · have hred : serviceCh false c ({ s with tick := u64 t } : PulsgenState) =
          ({ s with tick := u64 t } : PulsgenState) :=
        serviceCh_idle _ _ _ (by simpa using ht)
      rw [hred]
      exact ⟨hInv', Or.inl hq'⟩
  · rw [if_neg hscan]
    exact ⟨hInv', Or.inl hq'⟩

end Pulsgen

namespace Pulsgen

/-- The requests submitted in an event list, in order. -/
def reqsIn (es : List ChEv) : List TaskReq :=
  es.filterMap fun e => match e with | .add r => some r | .pass _ => none

/-- Number of tasks of the first `n` events that the channel has
finished with (enqueued but no longer pending). -/
def doneCount (c : Nat) (es : List ChEv) (n : Nat) : Nat :=
  (reqsIn (es.take n)).length - (chanQueue c (runEvs c (es.take n) initState)).length

theorem runEvs_append_one (c : Nat) (a : List ChEv) (e : ChEv) (s : PulsgenState) :
    runEvs c (a ++ [e]) s = applyEv c (runEvs c a s) e := by
  simp [runEvs, List.foldl_append]

theorem reqsIn_append_add (a : List ChEv) (r : TaskReq) :
    reqsIn (a ++ [ChEv.add r]) = reqsIn a ++ [r] := by
  simp [reqsIn, List.filterMap_append]

theorem reqsIn_append_pass (a : List ChEv) (t : Nat) :
    reqsIn (a ++ [ChEv.pass t]) = reqsIn a := by
  simp [reqsIn, List.filterMap_append]

theorem chanQueue_initState (c : Nat) : chanQueue c initState = [] := by
  simp [chanQueue, initState, zeroCh]

theorem C7_run_inv (c : Nat) (es : List ChEv)
    (hnodrop : ∀ n r, n < es.length → es[n]? = some (ChEv.add r) →
      (chanQueue c (runEvs c (es.take n) initState)).length < PULSGEN_FIFO_SIZE) :
    ∀ n, n ≤ es.length →
      C7Inv c (runEvs c (es.take n) initState) ∧
      ∃ k, k ≤ (reqsIn (es.take n)).length ∧
        chanQueue c (runEvs c (es.take n) initState) =
          ((reqsIn (es.take n)).map descOfReq).drop k := by
  intro n
  induction n with
  | zero =>
      intro _
      refine ⟨C7Inv_initState c, 0, by simp, ?_⟩
      simp [runEvs, reqsIn, chanQueue_initState]
  | succ n ih =>
      intro hn1
      have hlt : n < es.length := by omega
      obtain ⟨hInv, k, hk, hqk⟩ := ih (by omega)
      have htake : es.take (n + 1) = es.take n ++ [es.get ⟨n, hlt⟩] := by
        rw [List.take_succ]
        simp [List.getElem?_eq_getElem hlt]
      rw [htake, runEvs_append_one]
      cases hev : es.get ⟨n, hlt⟩ with
      | pass t =>
          obtain ⟨hInv', hq'⟩ := C7_pass c t _ hInv
          rw [reqsIn_append_pass]
          refine ⟨hInv', ?_⟩
          rcases hq' with hq' | hq'
          · exact ⟨k, hk, by rw [applyEv, hq', hqk]⟩
          · by_cases hkl : k < (reqsIn (es.take n)).length
            · refine ⟨k + 1, by omega, ?_⟩
              rw [applyEv, hq', hqk, List.tail_drop]
            · refine ⟨k, hk, ?_⟩
              have hke : k = (reqsIn (es.take n)).length := by omega
              have hnil : chanQueue c (runEvs c (es.take n) initState) = [] := by
                rw [hqk, hke]
                rw [List.drop_eq_nil_of_le (by simp)]
              rw [applyEv, hq', hnil, hke]
              simp [List.drop_eq_nil_of_le]
          | add r =>
          have hroom : (chanQueue c (runEvs c (es.take n) initState)).length <
              PULSGEN_FIFO_SIZE := by
            apply hnodrop n r hlt
            rw [List.getElem?_eq_getElem hlt]
            rw [show es[n] = es.get ⟨n, hlt⟩ from rfl, hev]
          obtain ⟨hInv', hq'⟩ := C7_add c r _ hInv hroom
          rw [reqsIn_append_add]
          refine ⟨hInv', k, by simp; omega, ?_⟩
          rw [applyEv, hq', hqk]
          rw [List.map_append]
          rw [List.drop_append_of_le_length (by simpa using hk)]
          simp

end Pulsgen

namespace Pulsgen

/-- C7: tasks execute in enqueue order per channel.  Formalisation: run
any interleaving `es` of `pulsgen_task_add` calls and
`pulsgen_module_base_thread` passes against channel `c` from the
power-on state, with no request dropped (whenever event `n` is an add,
the channel's pending queue is not full).  Then after every prefix of
`es` the channel's pending queue — active task first, then the used
FIFO slots in ring order — is exactly the suffix of the enqueued
requests (in submission order) that starts at the `doneCount`-th one,
and `doneCount` never decreases.  Hence the channel activates the
requests in exactly the order they were enqueued: none is dropped,
reordered, or skipped, under every interleaving and FIFO wraparound. -/
theorem C7_theorem (c : Nat) (es : List ChEv)
    (hnodrop : ∀ n r, n < es.length → es[n]? = some (ChEv.add r) →
      (chanQueue c (runEvs c (es.take n) initState)).length < PULSGEN_FIFO_SIZE) :
    ∀ n, n ≤ es.length →
      chanQueue c (runEvs c (es.take n) initState) =
        ((reqsIn (es.take n)).map descOfReq).drop (doneCount c es n) ∧
      (n < es.length → doneCount c es n ≤ doneCount c es (n + 1)) := by
  intro n hn
  obtain ⟨hInv, k, hk, hqk⟩ := C7_run_inv c es hnodrop n hn
  have hlen : (chanQueue c (runEvs c (es.take n) initState)).length =
      (reqsIn (es.take n)).length - k := by
    rw [hqk]
    simp
  have hdc : doneCount c es n = k := by
    unfold doneCount
    omega
  constructor
  · rw [hdc]
    exact hqk
  · intro hlt
    have htake : es.take (n + 1) = es.take n ++ [es.get ⟨n, hlt⟩] := by
      rw [List.take_succ]
      simp [List.getElem?_eq_getElem hlt]
    unfold doneCount
    rw [htake, runEvs_append_one]
    cases hev : es.get ⟨n, hlt⟩ with
    | pass t =>
        obtain ⟨_, hq'⟩ := C7_pass c t _ hInv
        rw [reqsIn_append_pass]
        rcases hq' with hq' | hq'
        · rw [applyEv, hq']
        · rw [applyEv, hq', List.length_tail]
          omega
    | add r =>
        have hroom : (chanQueue c (runEvs c (es.take n) initState)).length <
            PULSGEN_FIFO_SIZE := by
          apply hnodrop n r hlt
          rw [List.getElem?_eq_getElem hlt]
          rw [show es[n] = es.get ⟨n, hlt⟩ from rfl, hev]
        obtain ⟨_, hq'⟩ := C7_add c r _ hInv hroom
        rw [reqsIn_append_add, applyEv, hq']
        simp

/-- Three tasks A, B, C on channel 0: A to the idle channel, B and C
while busy, interleaved with base-thread passes that retire A and
activate B. -/
def demoEvs : List ChEv :=
  [ChEv.add ⟨0, 1, 0, 0, 0⟩, ChEv.add ⟨1, 3, 100, 100, 0⟩, ChEv.add ⟨0, 4, 50, 50, 0⟩,
   ChEv.pass 1, ChEv.pass 2, ChEv.pass 3]

theorem C7_witness :
    chanQueue 0 (runEvs 0 (demoEvs.take 6) initState) =
      ((reqsIn (demoEvs.take 6)).map descOfReq).drop (doneCount 0 demoEvs 6) := by
  refine ((C7_theorem 0 demoEvs ?_ 6 (by decide)).1)
  intro n r hn hev
  have hn6 : n < 6 := by simpa [demoEvs] using hn
  interval_cases n <;> decide

end Pulsgen
